import Mathlib

/-!
Verification of the Feen API-key vault and proxy gateway.

This file embeds the request-time data plane of the repository in Lean 4:
the keyed hash and authenticated-encryption vault, the token scope check,
the rate limiter, the proxy request handler with its provider-fallback
loop, the request-signature verifier, the TOTP verifier and the
suspicious-activity / token-rotation controller.  Each definition is a
direct translation of the corresponding TypeScript function; external
library primitives (Node `crypto` digests, the AES-256-GCM core) are
modelled by executable stand-ins that are faithful to the interface and
to the idealised properties the code relies on, as noted in their doc
comments.  The theorems at the end of the file settle the specification
claims against these definitions.
-/

namespace Feen

/-! ### JavaScript string primitives

The TypeScript source manipulates strings with `startsWith`, `slice`,
`split`, `toUpperCase` and `parseInt`.  These are modelled over the
character list of the string so that every definition evaluates by
kernel reduction. -/

/-- JavaScript `s.startsWith(pat)`. -/
def jsStartsWith (s pat : String) : Bool :=
  pat.data.isPrefixOf s.data

/-- JavaScript `s.slice(n)`. -/
def jsSlice (s : String) (n : Nat) : String :=
  ⟨s.data.drop n⟩

/-- JavaScript `s.split(sep)[0]` for a one-character separator: the
characters before the first occurrence of `sep` (the whole string when
`sep` does not occur). -/
def jsSplitHead (s : String) (sep : Char) : String :=
  ⟨s.data.takeWhile (fun c => c ≠ sep)⟩

/-- JavaScript `String.prototype.includes`: substring containment. -/
def jsIncludes : String → String → Bool :=
  fun s pat => listInfix pat.data s.data
where
  /-- `listInfix pat l` is true iff `pat` occurs contiguously in `l`. -/
  listInfix : List Char → List Char → Bool
    | pat, [] => pat.isEmpty
    | pat, c :: rest => pat.isPrefixOf (c :: rest) || listInfix pat rest

/-- JavaScript `s.toUpperCase()` (ASCII part, which is all the source
feeds it). -/
def jsToUpper (s : String) : String :=
  ⟨s.data.map Char.toUpper⟩

/-- Decimal digit recogniser. -/
def isDigitChar (c : Char) : Bool :=
  '0' ≤ c && c ≤ '9'

/-- Value of a run of decimal digits. -/
def digitsVal (l : List Char) : Nat :=
  l.foldl (fun acc c => acc * 10 + (c.toNat - 48)) 0

/-- JavaScript `parseInt(s, 10)`: an optional sign followed by at least
one decimal digit; trailing non-digit characters are ignored, and the
result is `none` (`NaN`) when no leading digit run exists. -/
def jsParseInt (s : String) : Option Int :=
  let core : List Char → Option Int := fun l =>
    let digits := l.takeWhile isDigitChar
    if digits.isEmpty then none else some (Int.ofNat (digitsVal digits))
  match s.data with
  | '-' :: rest => (core rest).map (fun v => -v)
  | l => core l

/-! ### Keyed hash (`src/lib/crypto.ts`, `hash`)

The source computes the SHA-256 hex digest of its input via the Node
`crypto` library (external code).  The digest is modelled as a perfect
(collision-free) hash: an executable injective function.  Everything the
repository relies on — determinism and absence of collisions on the
valid input space — holds of the model by construction. -/

/-- Model of `hash(data)`: the SHA-256 hex digest, idealised as an
injective function. -/
def hash (data : String) : String :=
  "sha256:" ++ data

theorem hash_injective : Function.Injective hash := by
  intro a b h
  have : ("sha256:" ++ a).data = ("sha256:" ++ b).data := by
    rw [show ("sha256:" ++ a) = hash a from rfl, h, hash]
  simp only [String.data_append] at this
  exact String.ext (List.append_cancel_left this)

/-- `generateAccessToken(prefix)` from `crypto.ts` mints
`prefix ++ "_" ++ base64url(24 random bytes)`; the random part is passed
in explicitly. -/
def generateAccessToken (pre rand : String) : String :=
  pre ++ "_" ++ rand

/-! ### Token scopes (`src/lib/security/token-scopes.ts`) -/

/-- Endpoint-to-scope table `EndpointScopes`, as an ordered association
list (iteration order of `Object.entries` is insertion order). -/
def EndpointScopes : List (String × List String) :=
  [ ("v1/chat/completions", ["chat:write", "*"]),
    ("v1/completions", ["completions:write", "*"]),
    ("v1/embeddings", ["embeddings:write", "*"]),
    ("v1/images/generations", ["images:write", "*"]),
    ("v1/images/edits", ["images:edit", "*"]),
    ("v1/images/variations", ["images:write", "*"]),
    ("v1/audio/transcriptions", ["audio:transcribe", "*"]),
    ("v1/audio/translations", ["audio:translate", "*"]),
    ("v1/audio/speech", ["audio:speech", "*"]),
    ("v1/models", ["models:list", "models:read", "*"]),
    ("v1/files", ["files:read", "files:write", "*"]),
    ("v1/fine_tuning/jobs", ["finetune:read", "finetune:write", "*"]),
    ("v1/assistants", ["assistants:read", "assistants:write", "*"]),
    ("v1/messages", ["chat:write", "*"]),
    ("v1/complete", ["completions:write", "*"]) ]

/-- Path normalisation in `hasRequiredScope`:
`endpoint.replace(/^\//, "").split("?")[0]` removes one leading slash and
strips the query string. -/
def normalizeEndpoint (endpoint : String) : String :=
  let noSlash := if jsStartsWith endpoint "/" then jsSlice endpoint 1 else endpoint
  jsSplitHead noSlash '?'

/-- Scope lookup loop of `hasRequiredScope`: the first table entry whose
pattern is a prefix of, or contained in, the normalised endpoint wins;
no match leaves the required set empty. -/
def endpointRequiredScopes (endpoint : String) : List String :=
  let n := normalizeEndpoint endpoint
  match EndpointScopes.find? (fun e => jsStartsWith n e.1 || jsIncludes n e.1) with
  | some e => e.2
  | none => []

structure ScopeCheckResult where
  allowed : Bool
  requiredScopes : List String
  missingScopes : List String
  deriving Repr, DecidableEq

/-- `hasRequiredScope(tokenScopes, endpoint, method)` from
`token-scopes.ts` (the `method` argument is unused in the source too). -/
def hasRequiredScope (tokenScopes : List String) (endpoint : String)
    (_method : String) : ScopeCheckResult :=
  let requiredScopes := endpointRequiredScopes endpoint
  if requiredScopes.isEmpty then
    ⟨true, [], []⟩
  else if tokenScopes.contains "*" then
    ⟨true, requiredScopes, []⟩
  else
    let hasMatchingScope := requiredScopes.any (fun s => tokenScopes.contains s)
    let missingScopes :=
      if hasMatchingScope then [] else requiredScopes.filter (fun s => s ≠ "*")
    ⟨hasMatchingScope, requiredScopes, missingScopes⟩

/-! ### Digest models

The Node `crypto` digests (HMAC-SHA256 hex, HMAC-SHA1) are external
library code.  They are modelled by executable keyed mixing functions
with the same interface and output shape: a 64-character lowercase hex
string for HMAC-SHA256, a 20-byte buffer for HMAC-SHA1.  Nothing the
repository relies on distinguishes the real compression function from
the model. -/

/-- Character of a digit value in base up to 16 (`0`–`9`, `a`–`f`). -/
def digitChar (d : Nat) : Char :=
  if d < 10 then Char.ofNat (48 + d) else Char.ofNat (87 + d)

/-- Fixed-width digit expansion, most significant digit first. -/
def digitsFixedAux (base : Nat) : Nat → Nat → List Char → List Char
  | 0, _, acc => acc
  | l + 1, n, acc => digitsFixedAux base l (n / base) (digitChar (n % base) :: acc)

/-- `len`-character lowercase hex rendering of `n mod 16^len`. -/
def hexFixed (len n : Nat) : String :=
  ⟨digitsFixedAux 16 len n []⟩

/-- `len`-character zero-padded decimal rendering of `n mod 10^len`. -/
def decFixed (len n : Nat) : String :=
  ⟨digitsFixedAux 10 len n []⟩

theorem digitsFixedAux_length (base : Nat) :
    ∀ (len n : Nat) (acc : List Char),
      (digitsFixedAux base len n acc).length = len + acc.length := by
  intro len
  induction len with
  | zero => intro n acc; simp [digitsFixedAux]
  | succ l ih =>
    intro n acc
    rw [digitsFixedAux, ih]
    simp
    omega

theorem hexFixed_length (len n : Nat) : (hexFixed len n).length = len := by
  show (digitsFixedAux 16 len n []).length = len
  rw [digitsFixedAux_length]
  rfl

theorem decFixed_length (len n : Nat) : (decFixed len n).length = len := by
  show (digitsFixedAux 10 len n []).length = len
  rw [digitsFixedAux_length]
  rfl

/-- One mixing step of the digest models. -/
def mixChar (acc : Nat) (c : Char) : Nat :=
  (acc * 131 + c.toNat + 1) % (2 ^ 256)

/-- Model of `crypto.createHmac("sha256", key).update(msg).digest("hex")`:
a deterministic keyed function onto 64-character lowercase hex strings. -/
def hmacSha256Hex (key msg : String) : String :=
  hexFixed 64 ((key.data.foldl mixChar 7 * 2 ^ 128 + msg.data.foldl mixChar 11)
    % (2 ^ 256))

theorem hmacSha256Hex_length (key msg : String) :
    (hmacSha256Hex key msg).length = 64 :=
  hexFixed_length 64 _

/-- Model of `crypto.createHmac("sha1", secret).update(counterBE).digest()`:
a deterministic keyed function onto 20-byte buffers. -/
def hmacSha1Bytes (secret : String) (timeStep : Int) : List Nat :=
  let seed := secret.data.foldl mixChar 17
  (List.range 20).map (fun j =>
    (seed + timeStep.natAbs * 131 + (if timeStep < 0 then 7 else 0) + j * 89) % 256)

/-! ### Request signing (`src/lib/security/request-signing.ts`) -/

def SIGNATURE_VALIDITY_SECONDS : Int := 300

structure SignaturePayload where
  timestamp : Int
  nonce : String
  method : String
  path : String
  body : Option String
  tokenId : String
  deriving Repr, DecidableEq

/-- `generateSignature(payload, secret)`: HMAC-SHA256 hex digest of
`timestamp \n nonce \n METHOD \n path \n (body ?? "") \n tokenId`. -/
def generateSignature (payload : SignaturePayload) (secret : String) : String :=
  let signatureBase := String.intercalate "\n"
    [toString payload.timestamp, payload.nonce, jsToUpper payload.method,
     payload.path, payload.body.getD "", payload.tokenId]
  hmacSha256Hex secret signatureBase

/-- `crypto.timingSafeEqual(Buffer.from(a), Buffer.from(b))`: throws
(`.error`) when the buffers differ in length, otherwise reports
byte-wise equality.  The strings compared by the source are ASCII, so
the byte length is the character count. -/
def timingSafeEqual (a b : String) : Except Unit Bool :=
  if a.length = b.length then .ok (a == b) else .error ()

/-- The module-level `NONCE_CACHE` map: `tokenId:nonce` keys with the
request timestamp as value. -/
def NonceCache := List (String × Int)

/-- `cleanOldNonces()`: drop every entry whose stored timestamp is older
than `now − 2 × SIGNATURE_VALIDITY_SECONDS`. -/
def cleanOldNonces (cache : List (String × Int)) (now : Int) :
    List (String × Int) :=
  cache.filter (fun e => ¬ e.2 < now - SIGNATURE_VALIDITY_SECONDS * 2)

structure SigHeaders where
  timestamp : String
  signature : String
  nonce : String
  deriving Repr, DecidableEq

structure VerifyResult where
  valid : Bool
  error : Option String
  deriving Repr, DecidableEq

/-- `verifySignature(headers, method, path, body, tokenId, secret)` from
`request-signing.ts`, with the nonce cache threaded explicitly and `now`
the current epoch second.  A thrown exception (the length-mismatch throw
of `timingSafeEqual`) is `.error ()`. -/
def verifySignature (cache : List (String × Int)) (headers : SigHeaders)
    (method path : String) (body : Option String) (tokenId secret : String)
    (now : Int) : Except Unit (VerifyResult × List (String × Int)) :=
  match jsParseInt headers.timestamp with
  | none => .ok (⟨false, some "Invalid timestamp"⟩, cache)
  | some timestamp =>
    if (now - timestamp).natAbs > 300 then
      .ok (⟨false, some ("Signature expired. Request timestamp: "
        ++ toString timestamp ++ ", Server time: " ++ toString now)⟩, cache)
    else
      let nonceKey := tokenId ++ ":" ++ headers.nonce
      if cache.any (fun e => e.1 = nonceKey) then
        .ok (⟨false, some "Nonce already used (replay attack detected)"⟩, cache)
      else
        let cache2 := cleanOldNonces ((nonceKey, timestamp) :: cache) now
        let expectedSignature := generateSignature
          ⟨timestamp, headers.nonce, method, path, body, tokenId⟩ secret
        match timingSafeEqual headers.signature expectedSignature with
        | .error e => .error e
        | .ok signatureValid =>
          if signatureValid then
            .ok (⟨true, none⟩, cache2)
          else
            .ok (⟨false, some "Invalid signature"⟩, cache2)

/-! ### TOTP (`src/lib/security/two-factor.ts`) -/

/-- `generateTOTP(secret, timeStep)`: HMAC-SHA1 of the big-endian step
counter, dynamic truncation, six zero-padded decimal digits. -/
def generateTOTP (secret : String) (timeStep : Int) : String :=
  let hashBytes := hmacSha1Bytes secret timeStep
  let offset := hashBytes.getD 19 0 % 16
  let binary := (hashBytes.getD offset 0 % 128) * 2 ^ 24
    + hashBytes.getD (offset + 1) 0 * 2 ^ 16
    + hashBytes.getD (offset + 2) 0 * 2 ^ 8
    + hashBytes.getD (offset + 3) 0
  decFixed 6 (binary % 10 ^ 6)

theorem generateTOTP_length (secret : String) (timeStep : Int) :
    (generateTOTP secret timeStep).length = 6 :=
  decFixed_length 6 _

/-- The `for (let i = -TOTP_WINDOW; i <= TOTP_WINDOW; i++)` loop of
`verifyTOTP`. -/
def totpLoop (secret code : String) : List Int → Except Unit Bool
  | [] => .ok false
  | step :: rest =>
    match timingSafeEqual code (generateTOTP secret step) with
    | .error e => .error e
    | .ok true => .ok true
    | .ok false => totpLoop secret code rest

/-- `verifyTOTP(secret, code)` from `two-factor.ts`: the current 30-second
step and its two neighbours. -/
def verifyTOTP (secret code : String) (now : Nat) : Except Unit Bool :=
  totpLoop secret code
    [Int.ofNat (now / 30) - 1, Int.ofNat (now / 30), Int.ofNat (now / 30) + 1]

/-! ### Rate limiter (`src/lib/redis.ts`, `checkRateLimit`) -/

/-- Model of the fast-store keys touched by the rate limiter: a counter
table and a TTL table (seconds), both keyed by strings. -/
structure RedisKV where
  counters : List (String × Nat)
  ttls : List (String × Nat)
  deriving Repr, DecidableEq

def RedisKV.getCounter (r : RedisKV) (k : String) : Option Nat :=
  (r.counters.find? (fun e => e.1 = k)).map (fun e => e.2)

/-- Redis `INCR`: missing keys count as 0; returns the post-increment
value and the new store. -/
def RedisKV.incr (r : RedisKV) (k : String) : Nat × RedisKV :=
  let current := (r.getCounter k).getD 0
  let value := current + 1
  (value,
    { r with counters :=
        (k, value) :: r.counters.filter (fun e => e.1 ≠ k) })

/-- Redis `EXPIRE`. -/
def RedisKV.expire (r : RedisKV) (k : String) (ttl : Nat) : RedisKV :=
  { r with ttls := (k, ttl) :: r.ttls.filter (fun e => e.1 ≠ k) }

def RedisKV.getTtl (r : RedisKV) (k : String) : Option Nat :=
  (r.ttls.find? (fun e => e.1 = k)).map (fun e => e.2)

structure RateLimitResult where
  allowed : Bool
  remaining : Nat
  resetAt : Nat
  deriving Repr, DecidableEq

/-- Window key built by `checkRateLimit`:
`ratelimit:<key>:<floor(now/windowSeconds)>`. -/
def rateLimitWindowKey (key : String) (windowSeconds now : Nat) : String :=
  "ratelimit:" ++ key ++ ":" ++ toString (now / windowSeconds)

/-- `checkRateLimit(key, limit, windowSeconds)` from `redis.ts`.  The
store argument is `none` when the fast store is unreachable (the
`catch` branch: fail open).  `now` is `floor(Date.now()/1000)`. -/
def checkRateLimit (store : Option RedisKV) (key : String)
    (limit windowSeconds now : Nat) : RateLimitResult × Option RedisKV :=
  match store with
  | none =>
      ({ allowed := true, remaining := limit, resetAt := now + windowSeconds },
        none)
  | some r =>
      let windowKey := rateLimitWindowKey key windowSeconds now
      let (current, r1) := r.incr windowKey
      let r2 := if current = 1 then r1.expire windowKey windowSeconds else r1
      ({ allowed := current ≤ limit,
         remaining := limit - current,
         resetAt := (now / windowSeconds + 1) * windowSeconds },
        some r2)

/-! ### Providers and routing (`src/lib/routing.ts`) -/

/-- The `ApiProvider` enum of the Prisma schema. -/
inductive ApiProvider where
  | OPENAI | ANTHROPIC | GOOGLE | AZURE_OPENAI | COHERE | MISTRAL
  | GROQ | TOGETHER | REPLICATE | HUGGINGFACE | BYTEZ | CUSTOM
  deriving Repr, DecidableEq

open ApiProvider in
/-- `PROVIDER_ENDPOINTS`: base URL per provider; `AZURE_OPENAI` and
`CUSTOM` have no entry (lookup yields `undefined`). -/
def PROVIDER_ENDPOINTS : ApiProvider → Option String
  | OPENAI => some "https://api.openai.com"
  | ANTHROPIC => some "https://api.anthropic.com"
  | GOOGLE => some "https://generativelanguage.googleapis.com"
  | COHERE => some "https://api.cohere.ai"
  | MISTRAL => some "https://api.mistral.ai"
  | GROQ => some "https://api.groq.com/openai"
  | TOGETHER => some "https://api.together.xyz"
  | REPLICATE => some "https://api.replicate.com"
  | HUGGINGFACE => some "https://api-inference.huggingface.co"
  | BYTEZ => some "https://api.bytez.ai/v2"
  | AZURE_OPENAI => none
  | CUSTOM => none

open ApiProvider in
/-- `MODEL_PROVIDER_MAP`: static model-to-preferred-provider table. -/
def MODEL_PROVIDER_MAP : List (String × List ApiProvider) :=
  [ ("gpt-3.5-turbo", [OPENAI, AZURE_OPENAI, TOGETHER]),
    ("gpt-4", [OPENAI, AZURE_OPENAI]),
    ("gpt-4-turbo", [OPENAI, AZURE_OPENAI]),
    ("gpt-4o", [OPENAI, AZURE_OPENAI]),
    ("claude-3-opus-20240229", [ANTHROPIC]),
    ("claude-3-sonnet-20240229", [ANTHROPIC]),
    ("claude-3-haiku-20240307", [ANTHROPIC]),
    ("mistral-large-latest", [MISTRAL, AZURE_OPENAI]),
    ("llama-3-70b-instruct", [TOGETHER, GROQ, MISTRAL]),
    ("llama-3-8b-instruct", [TOGETHER, GROQ, MISTRAL]) ]

/-- Latency comparison used to sort candidates: a missing cache entry
(`latency:<provider>` absent) counts as `Infinity`. -/
def latencyLt (a b : Option Nat) : Bool :=
  match a, b with
  | some x, some y => x < y
  | some _, none => true
  | none, _ => false

/-- Head of `scores.sort((a, b) => a.latency - b.latency)`: the sort is
stable, so the result is the first provider attaining the minimal cached
latency. -/
def pickFastest (latency : ApiProvider → Option Nat) :
    List ApiProvider → Option ApiProvider
  | [] => none
  | p :: rest =>
    match pickFastest latency rest with
    | none => some p
    | some q => if latencyLt (latency q) (latency p) then some q else some p

/-- `getFastestProvider(model, availableProviders)` from `routing.ts`.
The `latency` argument models the `latency:<provider>` cache reads. -/
def getFastestProvider (latency : ApiProvider → Option Nat)
    (model : String) (availableProviders : List ApiProvider) :
    Option ApiProvider :=
  let preferredProviders :=
    ((MODEL_PROVIDER_MAP.find? (fun e => e.1 = model)).map (fun e => e.2)).getD []
  let candidates := availableProviders.filter (fun p => preferredProviders.contains p)
  match candidates with
  | [] => availableProviders.head?
  | [c] => some c
  | _ => pickFastest latency candidates

/-! ### The proxy handler (`src/app/api/proxy/[...path]/route.ts`) -/

/-- Vault record (`apiKey` row) as used by the proxy. -/
structure ApiKey where
  id : String
  userId : String
  teamId : Option String
  provider : ApiProvider
  encryptedKey : String
  isActive : Bool
  deriving Repr, DecidableEq

/-- Shared-token record (`sharedKey` row) as used by the proxy and the
rotation controller. -/
structure SharedKey where
  id : String
  accessToken : String
  tokenHash : String
  apiKeyId : String
  ownerId : String
  isActive : Bool
  expiresAt : Option Nat
  maxUsage : Option Nat
  usageCount : Nat
  allowedIPs : List String
  rateLimit : Nat
  deriving Repr, DecidableEq

/-- Outcome of one upstream `fetch`: the promise rejects (transport
error) or resolves with a status code. -/
inductive UpstreamOutcome where
  | transportError
  | completed (status : Nat)
  deriving Repr, DecidableEq

/-- `Response.ok`: status in the 2xx range. -/
def statusOk (s : Nat) : Bool :=
  200 ≤ s && s < 300

/-- The candidate loop of `handleProxy` (`for (const apiKey of
sortedApiKeys)`): `acc` is the current value of the `proxyResponse`
variable.  A candidate whose provider has no base URL is skipped
(`continue`); a transport error leaves `proxyResponse` unchanged; a
completed response is stored, and the loop breaks exactly when it is 2xx
(`if (proxyResponse.ok) break`). -/
def runAttempts (upstream : ApiKey → UpstreamOutcome) :
    List ApiKey → Option Nat → Option Nat
  | [], acc => acc
  | k :: rest, acc =>
    match PROVIDER_ENDPOINTS k.provider with
    | none => runAttempts upstream rest acc
    | some _ =>
      match upstream k with
      | .transportError => runAttempts upstream rest acc
      | .completed s =>
        if statusOk s then some s else runAttempts upstream rest (some s)

/-- The `sortedApiKeys` comparator of `handleProxy`, as executed by
Node/V8.  The comparator is inconsistent: for two keys that both match
`bestProvider` it returns `-1` in both argument orders, so ECMAScript
leaves their relative order implementation-defined, and V8's TimSort —
whose binary insertion places a pivot that compares below everything at
the front, the same mechanism that makes `[1,2,3].sort(() => -1)`
produce `[3,2,1]` — reverses the best-provider group.  The two
consistent groups (the key referenced by the shared token, then the
remaining keys) keep their insertion order. -/
def sortApiKeysByPreference (keys : List ApiKey)
    (bestProvider : Option ApiProvider) (refKeyId : String) : List ApiKey :=
  let bestKeys := keys.filter (fun k => some k.provider = bestProvider)
  let rest := keys.filter (fun k => ¬ some k.provider = bestProvider)
  let refKeys := rest.filter (fun k => k.id = refKeyId)
  let others := rest.filter (fun k => k.id ≠ refKeyId)
  bestKeys.reverse ++ refKeys ++ others

/-- The slice of the incoming `NextRequest` the proxy reads.  The body is
read once as text and `JSON.parse`d only to extract `model`;
`requestedModel` models `bodyJSON.model` (absent when the body is not
JSON or has no `model` field). -/
structure ProxyRequest where
  authHeader : Option String
  xForwardedFor : Option String
  method : String
  requestedModel : Option String
  deriving Repr, DecidableEq

/-- Environment of one proxy call: database rows, the fast store
(`none` = unreachable), the latency cache, the upstream network and the
current time in seconds. -/
structure ProxyEnv where
  sharedKeys : List SharedKey
  apiKeys : List ApiKey
  redis : Option RedisKV
  latency : ApiProvider → Option Nat
  upstream : ApiKey → UpstreamOutcome
  now : Nat

/-- Response committed to the client: either an error produced by the
proxy itself (status plus the `error` message of its JSON body) or a
forwarded upstream response. -/
inductive ProxyResult where
  | errorResponse (status : Nat) (message : String)
  | upstreamResponse (status : Nat)
  deriving Repr, DecidableEq

/-- What one proxy call produced: the response, the fast store after the
rate-limit check, and the suspicious-activity events recorded while
handling the request (`handleProxy` contains no call to
`recordSuspiciousActivity`, so each branch records none). -/
structure ProxyOutcome where
  result : ProxyResult
  redisAfter : Option RedisKV
  suspiciousEvents : List (String × String)
  deriving Repr, DecidableEq

/-- Client IP extraction:
`request.headers.get("x-forwarded-for")?.split(",")[0] || "unknown"`. -/
def clientIPOf (req : ProxyRequest) : String :=
  match req.xForwardedFor with
  | none => "unknown"
  | some s =>
    let ip := jsSplitHead s ','
    if ip = "" then "unknown" else ip

/-- IP allow-list gate of `handleProxy`:
`sharedKey.allowedIPs.length > 0 && !sharedKey.allowedIPs.includes(clientIP)`. -/
def ipBlocked (allowedIPs : List String) (clientIP : String) : Bool :=
  !allowedIPs.isEmpty && !allowedIPs.contains clientIP

/-- Tail of the candidate loop: on an empty candidate list
`sortedApiKeys[0].provider` throws and the catch block answers 500;
otherwise the loop runs and a `null` final `proxyResponse` yields the
502 body while a stored response is forwarded. -/
def fallbackResult (upstream : ApiKey → UpstreamOutcome)
    (redisAfter : Option RedisKV) (sortedApiKeys : List ApiKey) : ProxyOutcome :=
  match sortedApiKeys with
  | [] => ⟨.errorResponse 500 "Internal proxy error", redisAfter, []⟩
  | _ :: _ =>
    match runAttempts upstream sortedApiKeys none with
    | none => ⟨.errorResponse 502 "All available providers failed", redisAfter, []⟩
    | some s => ⟨.upstreamResponse s, redisAfter, []⟩

/-- Steps of `handleProxy` from the key search on (`availableApiKeys`
query, provider selection, candidate sort, fallback loop, final
response), given the authenticated shared key and its included API key
row. -/
def forwardToProviders (env : ProxyEnv) (req : ProxyRequest)
    (sharedKey : SharedKey) (sharedApiKey : ApiKey)
    (redisAfter : Option RedisKV) : ProxyOutcome :=
  let availableApiKeys := env.apiKeys.filter (fun k =>
    (k.userId = sharedKey.ownerId || k.teamId = sharedApiKey.teamId) && k.isActive)
  let availableProviders := availableApiKeys.map (fun k => k.provider)
  let bestProvider :=
    match req.requestedModel with
    | some model => getFastestProvider env.latency model availableProviders
    | none => some sharedApiKey.provider
  let sortedApiKeys :=
    sortApiKeysByPreference availableApiKeys bestProvider sharedKey.apiKeyId
  fallbackResult env.upstream redisAfter sortedApiKeys

/-- Policy checks of `handleProxy` that follow the token lookup: expiry,
usage cap, IP allow-list, rate limit, then the forwarding steps. -/
def proxyWithToken (env : ProxyEnv) (req : ProxyRequest)
    (sharedKey : SharedKey) : ProxyOutcome :=
  if sharedKey.expiresAt.any (fun e => e < env.now) then
    ⟨.errorResponse 401 "Access token has expired", env.redis, []⟩
  else if sharedKey.maxUsage.any (fun m => m ≠ 0 && sharedKey.usageCount ≥ m) then
    ⟨.errorResponse 429 "Access token usage limit exceeded", env.redis, []⟩
  else if ipBlocked sharedKey.allowedIPs (clientIPOf req) then
    ⟨.errorResponse 403 "IP address not allowed", env.redis, []⟩
  else
    let (rateLimitResult, redisAfter) :=
      checkRateLimit env.redis ("shared:" ++ sharedKey.id ++ ":minute")
        sharedKey.rateLimit 60 env.now
    if rateLimitResult.allowed = false then
      ⟨.errorResponse 429 "Rate limit exceeded", redisAfter, []⟩
    else
      match env.apiKeys.find? (fun k => k.id = sharedKey.apiKeyId) with
      | none =>
        -- the Prisma `include: { apiKey: true }` join cannot miss for a
        -- well-formed database; a miss would throw and hit the catch
        -- block (500).
        ⟨.errorResponse 500 "Internal proxy error", redisAfter, []⟩
      | some sharedApiKey =>
        forwardToProviders env req sharedKey sharedApiKey redisAfter

/-- `handleProxy` from the proxy route: bearer extraction, `feen_`
format check, hash lookup of an active row, then `proxyWithToken`. -/
def handleProxy (env : ProxyEnv) (req : ProxyRequest) : ProxyOutcome :=
  match req.authHeader with
  | none => ⟨.errorResponse 401 "Missing or invalid authorization header", env.redis, []⟩
  | some authHeader =>
    if ¬ jsStartsWith authHeader "Bearer " then
      ⟨.errorResponse 401 "Missing or invalid authorization header", env.redis, []⟩
    else
      let accessToken := jsSlice authHeader 7
      if ¬ jsStartsWith accessToken "feen_" then
        ⟨.errorResponse 401 "Invalid token format", env.redis, []⟩
      else
        let tokenHash := hash accessToken
        match env.sharedKeys.find? (fun t => t.tokenHash = tokenHash && t.isActive) with
        | none => ⟨.errorResponse 401 "Invalid or expired access token", env.redis, []⟩
        | some sharedKey => proxyWithToken env req sharedKey

/-! ### Authenticated encryption (`src/lib/crypto.ts`, `encrypt`/`decrypt`)

`encrypt` draws a 16-byte IV, runs AES-256-GCM (Node `crypto`, external
code), and returns `base64(iv ‖ tag ‖ ciphertext)`; `decrypt` splits the
decoded buffer at offsets 16 and 32, sets the auth tag and fails when
tag verification fails.  Base64 is modelled exactly.  The AES-GCM core
is modelled as an authenticated stream cipher in the GCM mould: a
keystream XOR for confidentiality and a polynomial (GHASH-style) tag
over `key ‖ iv ‖ ciphertext` reduced modulo `2^128` — like the real
GHASH, a single changed byte provably changes the tag.  Bytes are
natural numbers below 256. -/

/-- Character of a base64 sextet (standard alphabet `A–Za–z0–9+/`). -/
def b64Char (s : Nat) : Char :=
  if s < 26 then Char.ofNat (65 + s)
  else if s < 52 then Char.ofNat (71 + s)
  else if s < 62 then Char.ofNat (s - 4)
  else if s = 62 then '+'
  else '/'

/-- Sextet value of a base64 character. -/
def sextetOf (c : Char) : Nat :=
  if 'A' ≤ c ∧ c ≤ 'Z' then c.toNat - 65
  else if 'a' ≤ c ∧ c ≤ 'z' then c.toNat - 71
  else if '0' ≤ c ∧ c ≤ '9' then c.toNat + 4
  else if c = '+' then 62
  else 63

theorem sextetOf_b64Char : ∀ s : Fin 64, sextetOf (b64Char s.val) = s.val := by
  decide

theorem b64Char_ne_pad : ∀ s : Fin 64, b64Char s.val ≠ '=' := by
  decide

/-- Base64 encoding with padding (`Buffer.prototype.toString("base64")`). -/
def b64Encode : List Nat → List Char
  | [] => []
  | [b0] => [b64Char (b0 / 4), b64Char (b0 % 4 * 16), '=', '=']
  | [b0, b1] =>
    [b64Char (b0 / 4), b64Char (b0 % 4 * 16 + b1 / 16), b64Char (b1 % 16 * 4), '=']
  | b0 :: b1 :: b2 :: rest =>
    b64Char (b0 / 4) :: b64Char (b0 % 4 * 16 + b1 / 16)
      :: b64Char (b1 % 16 * 4 + b2 / 64) :: b64Char (b2 % 64) :: b64Encode rest

/-- Base64 decoding (`Buffer.from(s, "base64")`). -/
def b64Decode : List Char → List Nat
  | c0 :: c1 :: c2 :: c3 :: rest =>
    if c2 = '=' then
      [sextetOf c0 * 4 + sextetOf c1 / 16]
    else if c3 = '=' then
      [sextetOf c0 * 4 + sextetOf c1 / 16, sextetOf c1 % 16 * 16 + sextetOf c2 / 4]
    else
      (sextetOf c0 * 4 + sextetOf c1 / 16)
        :: (sextetOf c1 % 16 * 16 + sextetOf c2 / 4)
        :: (sextetOf c2 % 4 * 64 + sextetOf c3)
        :: b64Decode rest
  | _ => []

theorem mulAddDiv (k x y : Nat) (hk : 0 < k) (hy : y < k) :
    (x * k + y) / k = x := by
  rw [Nat.mul_comm, Nat.mul_add_div hk, Nat.div_eq_of_lt hy]
  omega

theorem mulAddMod (k x y : Nat) (hy : y < k) : (x * k + y) % k = y := by
  rw [Nat.mul_comm, Nat.mul_add_mod, Nat.mod_eq_of_lt hy]

/-- Decoding inverts encoding on byte lists. -/
theorem b64Decode_b64Encode : ∀ bs : List Nat, (∀ b ∈ bs, b < 256) →
    b64Decode (b64Encode bs) = bs
  | [], _ => by simp [b64Encode, b64Decode]
  | [b0], h => by
    have hb0 : b0 < 256 := h b0 (by simp)
    have h1 : sextetOf (b64Char (b0 / 4)) = b0 / 4 :=
      sextetOf_b64Char ⟨b0 / 4, by omega⟩
    have h2 : sextetOf (b64Char (b0 % 4 * 16)) = b0 % 4 * 16 :=
      sextetOf_b64Char ⟨b0 % 4 * 16, by omega⟩
    have e0 : b0 / 4 * 4 + b0 % 4 * 16 / 16 = b0 := by
      rw [Nat.mul_div_cancel _ (by omega : (0:Nat) < 16)]
      omega
    simp only [b64Encode, b64Decode, if_pos rfl, h1, h2, e0]
    simp
  | [b0, b1], h => by
    have hb0 : b0 < 256 := h b0 (by simp)
    have hb1 : b1 < 256 := h b1 (by simp)
    have h1 : sextetOf (b64Char (b0 / 4)) = b0 / 4 :=
      sextetOf_b64Char ⟨b0 / 4, by omega⟩
    have h2 : sextetOf (b64Char (b0 % 4 * 16 + b1 / 16)) = b0 % 4 * 16 + b1 / 16 :=
      sextetOf_b64Char ⟨b0 % 4 * 16 + b1 / 16, by omega⟩
    have h3 : sextetOf (b64Char (b1 % 16 * 4)) = b1 % 16 * 4 :=
      sextetOf_b64Char ⟨b1 % 16 * 4, by omega⟩
    have hne : b64Char (b1 % 16 * 4) ≠ '=' := b64Char_ne_pad ⟨b1 % 16 * 4, by omega⟩
    have e0 : b0 / 4 * 4 + (b0 % 4 * 16 + b1 / 16) / 16 = b0 := by
      rw [mulAddDiv 16 _ _ (by omega) (by omega)]
      omega
    have e1 : (b0 % 4 * 16 + b1 / 16) % 16 * 16 + b1 % 16 * 4 / 4 = b1 := by
      rw [mulAddMod 16 _ _ (by omega), Nat.mul_div_cancel _ (by omega : (0:Nat) < 4)]
      omega
    simp only [b64Encode, b64Decode, if_neg hne, if_pos rfl, h1, h2, h3, e0, e1]
    simp
  | [b0, b1, b2], h => by
    have hb0 : b0 < 256 := h b0 (by simp)
    have hb1 : b1 < 256 := h b1 (by simp)
    have hb2 : b2 < 256 := h b2 (by simp)
    have h1 : sextetOf (b64Char (b0 / 4)) = b0 / 4 :=
      sextetOf_b64Char ⟨b0 / 4, by omega⟩
    have h2 : sextetOf (b64Char (b0 % 4 * 16 + b1 / 16)) = b0 % 4 * 16 + b1 / 16 :=
      sextetOf_b64Char ⟨b0 % 4 * 16 + b1 / 16, by omega⟩
    have h3 : sextetOf (b64Char (b1 % 16 * 4 + b2 / 64)) = b1 % 16 * 4 + b2 / 64 :=
      sextetOf_b64Char ⟨b1 % 16 * 4 + b2 / 64, by omega⟩
    have h4 : sextetOf (b64Char (b2 % 64)) = b2 % 64 :=
      sextetOf_b64Char ⟨b2 % 64, by omega⟩
    have hne3 : b64Char (b1 % 16 * 4 + b2 / 64) ≠ '=' :=
      b64Char_ne_pad ⟨b1 % 16 * 4 + b2 / 64, by omega⟩
    have hne4 : b64Char (b2 % 64) ≠ '=' := b64Char_ne_pad ⟨b2 % 64, by omega⟩
    have e0 : b0 / 4 * 4 + (b0 % 4 * 16 + b1 / 16) / 16 = b0 := by
      rw [mulAddDiv 16 _ _ (by omega) (by omega)]
      omega
    have e1 : (b0 % 4 * 16 + b1 / 16) % 16 * 16 + (b1 % 16 * 4 + b2 / 64) / 4 = b1 := by
      rw [mulAddMod 16 _ _ (by omega), mulAddDiv 4 _ _ (by omega) (by omega)]
      omega
    have e2 : (b1 % 16 * 4 + b2 / 64) % 4 * 64 + b2 % 64 = b2 := by
      rw [mulAddMod 4 _ _ (by omega)]
      omega
    simp only [b64Encode, b64Decode, if_neg hne3, if_neg hne4, h1, h2, h3, h4,
      e0, e1, e2]
  | b0 :: b1 :: b2 :: b3 :: rest, h => by
    have hb0 : b0 < 256 := h b0 (by simp)
    have hb1 : b1 < 256 := h b1 (by simp)
    have hb2 : b2 < 256 := h b2 (by simp)
    have h1 : sextetOf (b64Char (b0 / 4)) = b0 / 4 :=
      sextetOf_b64Char ⟨b0 / 4, by omega⟩
    have h2 : sextetOf (b64Char (b0 % 4 * 16 + b1 / 16)) = b0 % 4 * 16 + b1 / 16 :=
      sextetOf_b64Char ⟨b0 % 4 * 16 + b1 / 16, by omega⟩
    have h3 : sextetOf (b64Char (b1 % 16 * 4 + b2 / 64)) = b1 % 16 * 4 + b2 / 64 :=
      sextetOf_b64Char ⟨b1 % 16 * 4 + b2 / 64, by omega⟩
    have h4 : sextetOf (b64Char (b2 % 64)) = b2 % 64 :=
      sextetOf_b64Char ⟨b2 % 64, by omega⟩
    have hne3 : b64Char (b1 % 16 * 4 + b2 / 64) ≠ '=' :=
      b64Char_ne_pad ⟨b1 % 16 * 4 + b2 / 64, by omega⟩
    have hne4 : b64Char (b2 % 64) ≠ '=' := b64Char_ne_pad ⟨b2 % 64, by omega⟩
    have e0 : b0 / 4 * 4 + (b0 % 4 * 16 + b1 / 16) / 16 = b0 := by
      rw [mulAddDiv 16 _ _ (by omega) (by omega)]
      omega
    have e1 : (b0 % 4 * 16 + b1 / 16) % 16 * 16 + (b1 % 16 * 4 + b2 / 64) / 4 = b1 := by
      rw [mulAddMod 16 _ _ (by omega), mulAddDiv 4 _ _ (by omega) (by omega)]
      omega
    have e2 : (b1 % 16 * 4 + b2 / 64) % 4 * 64 + b2 % 64 = b2 := by
      rw [mulAddMod 4 _ _ (by omega)]
      omega
    have ih := b64Decode_b64Encode (b3 :: rest)
      (fun b hb => h b (by simp at hb ⊢; tauto))
    simp only [b64Encode, b64Decode, if_neg hne3, if_neg hne4, h1, h2, h3, h4,
      e0, e1, e2, ih]

/-- Horner step of the polynomial authenticator (`b + 1` keeps the map
sensitive to zero bytes and lengths). -/
def polyStep (acc b : Nat) : Nat := acc * 257 + (b + 1)

/-- Polynomial value of a byte string, base 257. -/
def polyVal (l : List Nat) : Nat := l.foldl polyStep 0

theorem foldl_polyStep_add (ys : List Nat) : ∀ c δ : Nat,
    ys.foldl polyStep (c + δ) = ys.foldl polyStep c + δ * 257 ^ ys.length := by
  induction ys with
  | nil => intro c δ; simp
  | cons y ys ih =>
    intro c δ
    simp only [List.foldl_cons, List.length_cons]
    have hstep : polyStep (c + δ) y = polyStep c y + δ * 257 := by
      simp only [polyStep]
      ring
    rw [hstep, ih]
    ring

/-- A single changed byte changes the polynomial value modulo `2^128`:
the difference is `δ · 257^k` with `0 < δ < 256`, and `257^k` is odd. -/
theorem polyVal_mod_ne (xs ys : List Nat) (a b : Nat) (hne : a ≠ b)
    (ha : a < 256) (hb : b < 256) :
    polyVal (xs ++ a :: ys) % 2 ^ 128 ≠ polyVal (xs ++ b :: ys) % 2 ^ 128 := by
  wlog hab : a < b generalizing a b
  · exact (this b a hne.symm hb ha (by omega)).symm
  intro heq
  have hx : ∀ t : Nat, polyVal (xs ++ t :: ys) =
      ys.foldl polyStep (polyVal xs * 257 + (t + 1)) := by
    intro t
    rw [polyVal, List.foldl_append]
    rfl
  have hδ : polyVal xs * 257 + (b + 1) =
      (polyVal xs * 257 + (a + 1)) + (b - a) := by omega
  rw [hx a, hx b, hδ,
    foldl_polyStep_add ys (polyVal xs * 257 + (a + 1)) (b - a)] at heq
  have hmodeq : Nat.ModEq (2 ^ 128)
      (ys.foldl polyStep (polyVal xs * 257 + (a + 1)))
      (ys.foldl polyStep (polyVal xs * 257 + (a + 1))
        + (b - a) * 257 ^ ys.length) := heq
  have hdvd : 2 ^ 128 ∣ (b - a) * 257 ^ ys.length := by
    have := (Nat.modEq_iff_dvd' (Nat.le_add_right _ _)).mp hmodeq
    simpa using this
  have hco : Nat.Coprime (2 ^ 128) (257 ^ ys.length) :=
    Nat.Coprime.pow _ _ (by decide)
  have hdvd2 : 2 ^ 128 ∣ (b - a) := hco.dvd_of_dvd_mul_right hdvd
  have hge : 2 ^ 128 ≤ b - a := Nat.le_of_dvd (by omega) hdvd2
  have hpow : (256 : Nat) ≤ 2 ^ 128 := by norm_num
  omega

/-- Big-endian byte rendering, fixed width. -/
def natToBytesBE : Nat → Nat → List Nat
  | 0, _ => []
  | l + 1, v => natToBytesBE l (v / 256) ++ [v % 256]

def bytesToNat (l : List Nat) : Nat := l.foldl (fun acc b => acc * 256 + b) 0

theorem natToBytesBE_length : ∀ l v : Nat, (natToBytesBE l v).length = l := by
  intro l
  induction l with
  | zero => intro v; rfl
  | succ n ih =>
    intro v
    simp [natToBytesBE, ih]

theorem natToBytesBE_lt : ∀ l v : Nat, ∀ x ∈ natToBytesBE l v, x < 256 := by
  intro l
  induction l with
  | zero => intro v x hx; simp [natToBytesBE] at hx
  | succ n ih =>
    intro v x hx
    simp only [natToBytesBE, List.mem_append, List.mem_singleton] at hx
    rcases hx with hx | hx
    · exact ih _ x hx
    · omega

theorem bytesToNat_natToBytesBE : ∀ l v : Nat, v < 256 ^ l →
    bytesToNat (natToBytesBE l v) = v := by
  intro l
  induction l with
  | zero =>
    intro v hv
    simp only [pow_zero, Nat.lt_one_iff] at hv
    simp [natToBytesBE, bytesToNat, hv]
  | succ n ih =>
    intro v hv
    have hdiv : v / 256 < 256 ^ n := by
      rw [Nat.div_lt_iff_lt_mul (by omega)]
      calc v < 256 ^ (n + 1) := hv
        _ = 256 ^ n * 256 := by rw [pow_succ]
    show bytesToNat (natToBytesBE n (v / 256) ++ [v % 256]) = v
    rw [bytesToNat, List.foldl_append]
    have := ih (v / 256) hdiv
    rw [bytesToNat] at this
    rw [this]
    show v / 256 * 256 + v % 256 = v
    omega

theorem natToBytesBE_inj (m m' : Nat) (hm : m < 2 ^ 128) (hm' : m' < 2 ^ 128)
    (h : m ≠ m') : natToBytesBE 16 m ≠ natToBytesBE 16 m' := by
  intro he
  apply h
  have h256 : (256 : Nat) ^ 16 = 2 ^ 128 := by norm_num
  rw [← bytesToNat_natToBytesBE 16 m (by rw [h256]; exact hm),
      ← bytesToNat_natToBytesBE 16 m' (by rw [h256]; exact hm'), he]

/-- Model of the GCM authentication tag: a 16-byte GHASH-style
polynomial MAC over `key ‖ iv ‖ ciphertext`. -/
def gcmTag (key iv ct : List Nat) : List Nat :=
  natToBytesBE 16 (polyVal (key ++ iv ++ ct) % 2 ^ 128)

theorem gcmTag_length (key iv ct : List Nat) : (gcmTag key iv ct).length = 16 :=
  natToBytesBE_length 16 _

theorem gcmTag_lt (key iv ct : List Nat) : ∀ x ∈ gcmTag key iv ct, x < 256 :=
  natToBytesBE_lt 16 _

/-- Model of the AES-CTR keystream byte at offset `i`. -/
def ksByte (key iv : List Nat) (i : Nat) : Nat :=
  (polyVal key * 3 + polyVal iv * 5 + i * 7 + 11) % 256

/-- Keystream XOR from offset `i` (both encryption and decryption). -/
def xorStream (key iv : List Nat) : Nat → List Nat → List Nat
  | _, [] => []
  | i, b :: rest => (b ^^^ ksByte key iv i) :: xorStream key iv (i + 1) rest

theorem xorStream_xorStream (key iv : List Nat) :
    ∀ (i : Nat) (p : List Nat), xorStream key iv i (xorStream key iv i p) = p := by
  intro i p
  induction p generalizing i with
  | nil => rfl
  | cons b rest ih =>
    simp only [xorStream]
    rw [Nat.xor_assoc, Nat.xor_self, Nat.xor_zero, ih]

theorem xorStream_length (key iv : List Nat) :
    ∀ (i : Nat) (p : List Nat), (xorStream key iv i p).length = p.length := by
  intro i p
  induction p generalizing i with
  | nil => rfl
  | cons b rest ih => simp [xorStream, ih]

theorem xorStream_lt (key iv : List Nat) :
    ∀ (i : Nat) (p : List Nat), (∀ b ∈ p, b < 256) →
      ∀ x ∈ xorStream key iv i p, x < 256 := by
  intro i p
  induction p generalizing i with
  | nil => intro _ x hx; simp [xorStream] at hx
  | cons b rest ih =>
    intro hp x hx
    simp only [xorStream, List.mem_cons] at hx
    rcases hx with rfl | hx
    · have hb : b < 2 ^ 8 := hp b (by simp)
      have hk : ksByte key iv i < 2 ^ 8 := Nat.mod_lt _ (by omega)
      exact Nat.xor_lt_two_pow hb hk
    · exact ih (i + 1) (fun y hy => hp y (by simp [hy])) x hx

inductive DecryptError where
  | integrityFailure
  deriving Repr, DecidableEq

/-- Byte-level body of `encrypt`: `iv ‖ tag ‖ ciphertext`. -/
def encryptBytes (key iv p : List Nat) : List Nat :=
  iv ++ gcmTag key iv (xorStream key iv 0 p) ++ xorStream key iv 0 p

/-- `encrypt(plaintext)` from `crypto.ts`: AES-256-GCM (modelled) under
the boot key with a fresh 16-byte IV, returning
`base64(iv ‖ tag ‖ ciphertext)`.  `key` is the 32-byte boot key and `iv`
the random IV drawn by `crypto.randomBytes(16)`; the plaintext is given
as its UTF-8 bytes. -/
def encrypt (key iv p : List Nat) : String :=
  ⟨b64Encode (encryptBytes key iv p)⟩

/-- `decrypt(encryptedData)` from `crypto.ts`: base64-decode, split at
offsets 16 (end of IV) and 32 (end of tag), verify the tag
(`decipher.final()` throws on mismatch — the `IntegrityFailure`), and
return the decrypted bytes. -/
def decrypt (key : List Nat) (blob : String) : Except DecryptError (List Nat) :=
  let combined := b64Decode blob.data
  let iv := combined.take 16
  let tag := (combined.drop 16).take 16
  let encrypted := combined.drop 32
  if gcmTag key iv encrypted = tag then
    .ok (xorStream key iv 0 encrypted)
  else
    .error .integrityFailure

/-- Evaluation of `decrypt` on a blob already presented as
`iv ‖ tag ‖ ciphertext` with the layout the source assumes. -/
theorem decrypt_split (key iv2 tag2 ct2 : List Nat)
    (hiv : iv2.length = 16) (htag : tag2.length = 16)
    (hb : ∀ x ∈ iv2 ++ tag2 ++ ct2, x < 256) :
    decrypt key ⟨b64Encode (iv2 ++ tag2 ++ ct2)⟩ =
      if gcmTag key iv2 ct2 = tag2 then .ok (xorStream key iv2 0 ct2)
      else .error .integrityFailure := by
  unfold decrypt
  dsimp only
  rw [b64Decode_b64Encode _ hb]
  have h32 : (iv2 ++ tag2 ++ ct2).drop 32 = ct2 := by
    rw [List.append_assoc]
    rw [show (32 : Nat) = 16 + 16 from rfl, ← List.drop_drop,
      List.drop_left' hiv, List.drop_left' htag]
  rw [h32, List.append_assoc, List.take_left' hiv, List.drop_left' hiv,
    List.take_left' htag]

theorem eq_take_getD_drop (l : List Nat) (i : Nat) (h : i < l.length) :
    l = l.take i ++ l.getD i 0 :: l.drop (i + 1) := by
  rw [List.getD_eq_getElem l 0 h]
  conv_lhs => rw [← List.take_append_drop i l]
  rw [List.drop_eq_getElem_cons h]

theorem set_eq_take_cons_drop (l : List Nat) (i b : Nat) (h : i < l.length) :
    l.set i b = l.take i ++ b :: l.drop (i + 1) := by
  rw [List.set_eq_take_append_cons_drop, if_pos h]

theorem getD_lt_of_forall (l : List Nat) (i : Nat) (h : i < l.length)
    (hl : ∀ x ∈ l, x < 256) : l.getD i 0 < 256 := by
  rw [List.getD_eq_getElem l 0 h]
  exact hl _ (List.getElem_mem h)

theorem set_bound (l : List Nat) (i b' : Nat) (hl : ∀ x ∈ l, x < 256)
    (hb : b' < 256) : ∀ x ∈ l.set i b', x < 256 := by
  intro x hx
  rcases List.mem_or_eq_of_mem_set hx with h | rfl
  · exact hl x h
  · exact hb

theorem gcmTagV_ne (xs ys : List Nat) (a b : Nat) (hne : a ≠ b)
    (ha : a < 256) (hb : b < 256) :
    natToBytesBE 16 (polyVal (xs ++ a :: ys) % 2 ^ 128) ≠
      natToBytesBE 16 (polyVal (xs ++ b :: ys) % 2 ^ 128) :=
  natToBytesBE_inj _ _ (Nat.mod_lt _ (by norm_num)) (Nat.mod_lt _ (by norm_num))
    (polyVal_mod_ne xs ys a b hne ha hb)

/-- Changing one IV byte changes the recomputed tag. -/
theorem gcmTag_set_iv_ne (key iv ct : List Nat) (i b' : Nat)
    (hilt : i < iv.length) (hb' : b' < 256)
    (hivb : ∀ x ∈ iv, x < 256) (hne : b' ≠ iv.getD i 0) :
    gcmTag key (iv.set i b') ct ≠ gcmTag key iv ct := by
  have e1 : key ++ iv.set i b' ++ ct =
      (key ++ iv.take i) ++ b' :: (iv.drop (i + 1) ++ ct) := by
    rw [set_eq_take_cons_drop iv i b' hilt]
    simp [List.append_assoc]
  have e2 : key ++ iv ++ ct =
      (key ++ iv.take i) ++ iv.getD i 0 :: (iv.drop (i + 1) ++ ct) := by
    conv_lhs => rw [eq_take_getD_drop iv i hilt]
    simp [List.append_assoc]
  unfold gcmTag
  rw [e1, e2]
  exact gcmTagV_ne _ _ b' (iv.getD i 0) hne hb'
    (getD_lt_of_forall iv i hilt hivb)

/-- Changing one ciphertext byte changes the recomputed tag. -/
theorem gcmTag_set_ct_ne (key iv ct : List Nat) (j b' : Nat)
    (hjlt : j < ct.length) (hb' : b' < 256)
    (hctb : ∀ x ∈ ct, x < 256) (hne : b' ≠ ct.getD j 0) :
    gcmTag key iv (ct.set j b') ≠ gcmTag key iv ct := by
  have e1 : key ++ iv ++ ct.set j b' =
      (key ++ iv ++ ct.take j) ++ b' :: ct.drop (j + 1) := by
    rw [set_eq_take_cons_drop ct j b' hjlt]
    simp [List.append_assoc]
  have e2 : key ++ iv ++ ct =
      (key ++ iv ++ ct.take j) ++ ct.getD j 0 :: ct.drop (j + 1) := by
    conv_lhs => rw [eq_take_getD_drop ct j hjlt]
    simp [List.append_assoc]
  unfold gcmTag
  rw [e1, e2]
  exact gcmTagV_ne _ _ b' (ct.getD j 0) hne hb'
    (getD_lt_of_forall ct j hjlt hctb)

theorem set_ne_of_getD_ne (l : List Nat) (j b' : Nat) (hj : j < l.length)
    (hne : b' ≠ l.getD j 0) : l.set j b' ≠ l := by
  intro he
  apply hne
  have h1 : (l.set j b').getD j 0 = b' := by
    rw [List.getD_eq_getElem _ 0 (by rw [List.length_set]; exact hj)]
    exact List.getElem_set_self _
  rw [← h1, he]

/-! ### Suspicious activity and rotation
(`src/lib/security/token-rotation.ts`) -/

inductive SuspiciousActivityType where
  | RATE_LIMIT_EXCEEDED | BURST_REQUESTS | GEOGRAPHIC_ANOMALY
  | MULTIPLE_LOCATIONS | INVALID_SIGNATURE | EXPIRED_TIMESTAMP
  | REPLAY_ATTACK | UNUSUAL_USAGE_PATTERN | HIGH_ERROR_RATE
  | UNUSUAL_MODELS | IP_BLACKLISTED | UNAUTHORIZED_SCOPE
  deriving Repr, DecidableEq

/-- The string value of each enum member. -/
def SuspiciousActivityType.value : SuspiciousActivityType → String
  | .RATE_LIMIT_EXCEEDED => "rate_limit_exceeded"
  | .BURST_REQUESTS => "burst_requests"
  | .GEOGRAPHIC_ANOMALY => "geographic_anomaly"
  | .MULTIPLE_LOCATIONS => "multiple_locations"
  | .INVALID_SIGNATURE => "invalid_signature"
  | .EXPIRED_TIMESTAMP => "expired_timestamp"
  | .REPLAY_ATTACK => "replay_attack"
  | .UNUSUAL_USAGE_PATTERN => "unusual_usage_pattern"
  | .HIGH_ERROR_RATE => "high_error_rate"
  | .UNUSUAL_MODELS => "unusual_models"
  | .IP_BLACKLISTED => "ip_blacklisted"
  | .UNAUTHORIZED_SCOPE => "unauthorized_scope"

/-- `ROTATION_THRESHOLDS`: violations needed to trigger rotation. -/
def ROTATION_THRESHOLDS : SuspiciousActivityType → Nat
  | .RATE_LIMIT_EXCEEDED => 10
  | .BURST_REQUESTS => 5
  | .GEOGRAPHIC_ANOMALY => 3
  | .MULTIPLE_LOCATIONS => 5
  | .INVALID_SIGNATURE => 3
  | .EXPIRED_TIMESTAMP => 5
  | .REPLAY_ATTACK => 1
  | .UNUSUAL_USAGE_PATTERN => 5
  | .HIGH_ERROR_RATE => 10
  | .UNUSUAL_MODELS => 3
  | .IP_BLACKLISTED => 1
  | .UNAUTHORIZED_SCOPE => 3

/-- `VIOLATION_WINDOW`: one hour, in seconds. -/
def VIOLATION_WINDOW : Nat := 3600

structure AuditEntry where
  userId : String
  action : String
  resource : String
  resourceId : String
  deriving Repr, DecidableEq

structure Notification where
  notifType : String
  userId : String
  tokenId : String
  reason : String
  deriving Repr, DecidableEq

/-- The state touched by the rotation controller: the `sharedKey` table,
the `suspicious:<token>:<type>` Redis lists with their TTLs, the audit
log table and the `notifications:queue` list. -/
structure SecurityState where
  sharedKeys : List SharedKey
  suspiciousLists : List (String × List String)
  suspiciousTtls : List (String × Nat)
  auditLog : List AuditEntry
  notificationsQueue : List Notification
  deriving Repr, DecidableEq

/-- Redis `LRANGE`/`LLEN` view of a suspicious list (missing key =
empty list). -/
def SecurityState.getList (st : SecurityState) (k : String) : List String :=
  ((st.suspiciousLists.find? (fun e => e.1 = k)).map (fun e => e.2)).getD []

/-- Redis `LPUSH` on a suspicious list. -/
def SecurityState.lpush (st : SecurityState) (k : String) (v : String) :
    SecurityState :=
  { st with suspiciousLists :=
      (k, v :: st.getList k) :: st.suspiciousLists.filter (fun e => e.1 ≠ k) }

/-- Redis `EXPIRE` on a suspicious list. -/
def SecurityState.setTtl (st : SecurityState) (k : String) (ttl : Nat) :
    SecurityState :=
  { st with suspiciousTtls :=
      (k, ttl) :: st.suspiciousTtls.filter (fun e => e.1 ≠ k) }

def SecurityState.getTtl (st : SecurityState) (k : String) : Option Nat :=
  (st.suspiciousTtls.find? (fun e => e.1 = k)).map (fun e => e.2)

/-- `rotateToken(tokenId, userId, reason)` from `token-rotation.ts`: mint
a new access token, update `accessToken` and `tokenHash` in one
`db.sharedKey.update`, delete every `suspicious:<tokenId>:*` key, append
a `TOKEN_ROTATED` audit entry, queue a notification, return the new
token.  `rand` stands for the 24 random bytes of `generateAccessToken`. -/
def rotateToken (st : SecurityState) (tokenId userId reason rand : String) :
    String × SecurityState :=
  let newAccessToken := generateAccessToken "feen" rand
  let newTokenHash := hash newAccessToken
  let keyPat := "suspicious:" ++ tokenId ++ ":"
  let st1 := { st with sharedKeys := st.sharedKeys.map (fun k : SharedKey =>
      if k.id = tokenId then
        { k with accessToken := newAccessToken, tokenHash := newTokenHash }
      else k) }
  let st2 := { st1 with
      suspiciousLists := st1.suspiciousLists.filter (fun e => ¬ jsStartsWith e.1 keyPat),
      suspiciousTtls := st1.suspiciousTtls.filter (fun e => ¬ jsStartsWith e.1 keyPat) }
  let st3 := { st2 with auditLog :=
      st2.auditLog ++ [(⟨userId, "TOKEN_ROTATED", "sharedKey", tokenId⟩ : AuditEntry)] }
  let st4 := { st3 with notificationsQueue :=
      (⟨"token_rotated", userId, tokenId, reason⟩ : Notification) :: st3.notificationsQueue }
  (newAccessToken, st4)

/-- `recordSuspiciousActivity(event)` from `token-rotation.ts`: `LPUSH`
the event, `EXPIRE` the list to one hour, audit-log the event, read
`LLEN`, and rotate when the count meets or exceeds the type's
threshold. -/
def recordSuspiciousActivity (st : SecurityState)
    (etype : SuspiciousActivityType) (tokenId userId rand : String) :
    (Bool × Option String) × SecurityState :=
  let eventKey := "suspicious:" ++ tokenId ++ ":" ++ etype.value
  let st1 := (st.lpush eventKey etype.value).setTtl eventKey VIOLATION_WINDOW
  let violations := (st1.getList eventKey).length
  let threshold := ROTATION_THRESHOLDS etype
  let st2 := { st1 with auditLog :=
      st1.auditLog ++ [(⟨userId, "SUSPICIOUS_ACTIVITY", "sharedKey", tokenId⟩ : AuditEntry)] }
  if violations ≥ threshold then
    match rotateToken st2 tokenId userId etype.value rand with
    | (newToken, st3) => ((true, some newToken), st3)
  else
    ((false, none), st2)

end Feen

namespace Feen

/-! ### Fallback-loop bookkeeping for C1 -/

/-- The statuses of the upstream calls that complete while the candidate
loop walks `keys` (candidates with no base URL are skipped; transport
errors produce no response). -/
def attemptedStatuses (upstream : ApiKey → UpstreamOutcome)
    (keys : List ApiKey) : List Nat :=
  keys.filterMap (fun k =>
    match PROVIDER_ENDPOINTS k.provider with
    | none => none
    | some _ =>
      match upstream k with
      | .transportError => none
      | .completed s => some s)

theorem attemptedStatuses_cons_noUrl (upstream : ApiKey → UpstreamOutcome)
    (k : ApiKey) (rest : List ApiKey)
    (hurl : PROVIDER_ENDPOINTS k.provider = none) :
    attemptedStatuses upstream (k :: rest) = attemptedStatuses upstream rest := by
  simp [attemptedStatuses, List.filterMap_cons, hurl]

theorem attemptedStatuses_cons_err (upstream : ApiKey → UpstreamOutcome)
    (k : ApiKey) (rest : List ApiKey) (url : String)
    (hurl : PROVIDER_ENDPOINTS k.provider = some url)
    (hup : upstream k = .transportError) :
    attemptedStatuses upstream (k :: rest) = attemptedStatuses upstream rest := by
  simp [attemptedStatuses, List.filterMap_cons, hurl, hup]

theorem attemptedStatuses_cons_completed (upstream : ApiKey → UpstreamOutcome)
    (k : ApiKey) (rest : List ApiKey) (url : String) (s : Nat)
    (hurl : PROVIDER_ENDPOINTS k.provider = some url)
    (hup : upstream k = .completed s) :
    attemptedStatuses upstream (k :: rest) = s :: attemptedStatuses upstream rest := by
  simp [attemptedStatuses, List.filterMap_cons, hurl, hup]

/-- Declarative reading of the candidate loop: the final `proxyResponse`
is the first 2xx status if one occurs, else the last completed status,
else the initial accumulator. -/
theorem runAttempts_eq (upstream : ApiKey → UpstreamOutcome) :
    ∀ (keys : List ApiKey) (acc : Option Nat),
      runAttempts upstream keys acc =
        match (attemptedStatuses upstream keys).find? statusOk with
        | some s => some s
        | none => ((attemptedStatuses upstream keys).getLast?).or acc := by
  intro keys
  induction keys with
  | nil => intro acc; simp [runAttempts, attemptedStatuses]
  | cons k rest ih =>
    intro acc
    cases hurl : PROVIDER_ENDPOINTS k.provider with
    | none =>
      rw [attemptedStatuses_cons_noUrl upstream k rest hurl]
      simp only [runAttempts, hurl]
      exact ih acc
    | some url =>
      cases hup : upstream k with
      | transportError =>
        rw [attemptedStatuses_cons_err upstream k rest url hurl hup]
        simp only [runAttempts, hurl, hup]
        exact ih acc
      | completed s =>
        rw [attemptedStatuses_cons_completed upstream k rest url s hurl hup]
        by_cases hok : statusOk s = true
        · simp [runAttempts, hurl, hup, hok, List.find?_cons]
        · have hok' : statusOk s = false := by simpa using hok
          simp only [runAttempts, hurl, hup, hok', Bool.false_eq_true, if_false]
          rw [ih (some s)]
          rw [List.find?_cons_of_neg _ (by simp [hok'])]
          cases hfind : (attemptedStatuses upstream rest).find? statusOk with
          | some x => rfl
          | none =>
            cases hrest : attemptedStatuses upstream rest with
            | nil => simp
            | cons a l =>
              cases hlast : (a :: l).getLast? with
              | none => simp at hlast
              | some v => simp [hrest, hlast]

end Feen

namespace Feen

/-! ### Theorems for C8 (scope check) and C5 (rate limiter) -/

/-- C8: the scope check normalises the path (one leading slash removed,
query string stripped), matches it against the endpoint-to-scope table,
and permits the request iff the matched required set is empty (no table
entry applies), or the token holds the wildcard `*`, or the token holds
at least one required scope. -/
theorem hasRequiredScope_spec (tokenScopes : List String)
    (endpoint method : String) :
    (hasRequiredScope tokenScopes endpoint method).allowed = true ↔
      (endpointRequiredScopes endpoint = [] ∨ "*" ∈ tokenScopes ∨
        ∃ s ∈ endpointRequiredScopes endpoint, s ∈ tokenScopes) := by
  by_cases hreq : endpointRequiredScopes endpoint = []
  · simp [hasRequiredScope, hreq]
  · have hne : (endpointRequiredScopes endpoint).isEmpty = false := by
      simpa [List.isEmpty_iff] using hreq
    by_cases hw : tokenScopes.contains "*" = true
    · have hmem : "*" ∈ tokenScopes := List.elem_iff.mp hw
      simp [hasRequiredScope, hne, hw, hmem]
    · have hnmem : "*" ∉ tokenScopes := fun h => hw (List.elem_iff.mpr h)
      simp only [hasRequiredScope, hne, Bool.false_eq_true, if_false, hw]
      simp only [List.any_eq_true]
      constructor
      · rintro ⟨s, hs, hmemb⟩
        exact Or.inr (Or.inr ⟨s, hs, List.elem_iff.mp hmemb⟩)
      · rintro (h | h | ⟨s, hs, hmemb⟩)
        · exact absurd h hreq
        · exact absurd h hnmem
        · exact ⟨s, hs, List.elem_iff.mpr hmemb⟩

/-- C5 counterexample: the proxy invokes the limiter with the key
`shared:<token_id>:minute`, so the fast-store counter lives at
`ratelimit:shared:<token_id>:minute:<floor(now/60)>` — not at
`ratelimit:shared:<token_id>:<floor(now/60)>` as the claim states.  At
token id `tok1`, `now = 30`, the counter and TTL are created under the
`:minute:`-qualified key, which differs from the claimed key. -/
theorem checkRateLimit_key_counterexample :
    (checkRateLimit (some ⟨[], []⟩) "shared:tok1:minute" 2 60 30).2 =
      some ⟨[("ratelimit:shared:tok1:minute:0", 1)],
            [("ratelimit:shared:tok1:minute:0", 60)]⟩
    ∧ "ratelimit:shared:tok1:minute:0" ≠ "ratelimit:shared:tok1:0" := by
  decide

/-- C5 (amended): for a rate-limit check with limit `L` over a 60-second
window the limiter increments the counter keyed by
`ratelimit:shared:<token_id>:minute:<floor(now/60)>`, applies `EXPIRE 60`
exactly when the counter first transitions to 1, and returns `allowed`
iff the post-increment counter is at most `L`, `remaining = L − counter`
(truncated at 0) and `resetAt = (floor(now/60)+1)*60`; if the fast store
is unreachable it fails open with `allowed = true`, `remaining = L`. -/
theorem checkRateLimit_spec (r : RedisKV) (tid : String) (limit now : Nat)
    (wk : String) (prev : Nat) (res : RateLimitResult) (store' : Option RedisKV)
    (hwk : wk = rateLimitWindowKey ("shared:" ++ tid ++ ":minute") 60 now)
    (hprev : prev = (r.getCounter wk).getD 0)
    (hrun : (res, store') =
      checkRateLimit (some r) ("shared:" ++ tid ++ ":minute") limit 60 now) :
    wk = "ratelimit:shared:" ++ tid ++ ":minute:" ++ toString (now / 60) ∧
    (∃ r', store' = some r' ∧
      r'.getCounter wk = some (prev + 1) ∧
      (prev = 0 → r'.getTtl wk = some 60) ∧
      (prev ≠ 0 → r'.getTtl wk = r.getTtl wk)) ∧
    (res.allowed = true ↔ prev + 1 ≤ limit) ∧
    res.remaining = limit - (prev + 1) ∧
    res.resetAt = (now / 60 + 1) * 60 ∧
    checkRateLimit none ("shared:" ++ tid ++ ":minute") limit 60 now =
      ({ allowed := true, remaining := limit, resetAt := now + 60 }, none) := by
  have hkey : rateLimitWindowKey ("shared:" ++ tid ++ ":minute") 60 now =
      "ratelimit:shared:" ++ tid ++ ":minute:" ++ toString (now / 60) := by
    simp only [rateLimitWindowKey]
    apply String.ext
    simp [String.data_append, List.append_assoc]
  subst hwk hprev
  have hcnt : ∀ s : RedisKV, ∀ k : String,
      ((s.incr k).2).getCounter k = some ((s.getCounter k).getD 0 + 1) := by
    intro s k
    simp [RedisKV.incr, RedisKV.getCounter, List.find?_cons]
  have httl : ∀ s : RedisKV, ∀ k : String, ∀ t : Nat,
      (s.expire k t).getTtl k = some t := by
    intro s k t
    simp [RedisKV.expire, RedisKV.getTtl, List.find?_cons]
  set wk := rateLimitWindowKey ("shared:" ++ tid ++ ":minute") 60 now with hwkdef
  simp only [checkRateLimit, ← hwkdef] at hrun
  obtain ⟨hres, hstore⟩ : res = _ ∧ store' = _ :=
    ⟨congrArg Prod.fst hrun, congrArg Prod.snd hrun⟩
  subst hres hstore
  by_cases hp : (r.getCounter wk).getD 0 = 0
  · have hone : (r.incr wk).1 = 1 := by
      show (r.getCounter wk).getD 0 + 1 = 1
      omega
    refine ⟨hkey, ⟨_, rfl, ?_, ?_, ?_⟩, ?_, ?_, rfl, by simp [checkRateLimit]⟩
    · rw [if_pos hone]
      show ((r.incr wk).2.expire wk 60).getCounter wk = _
      simp [RedisKV.expire, RedisKV.getCounter]
      have := hcnt r wk
      simpa [RedisKV.getCounter] using this
    · intro _
      rw [if_pos hone]
      exact httl _ _ _
    · intro hne
      exact absurd hp hne
    · simp only [hone]
      simp [hp]
    · simp [hone, hp]
  · have hone : ¬ ((r.incr wk).1 = 1) := by
      show ¬ ((r.getCounter wk).getD 0 + 1 = 1)
      omega
    refine ⟨hkey, ⟨_, rfl, ?_, ?_, ?_⟩, ?_, rfl, rfl, by simp [checkRateLimit]⟩
    · rw [if_neg hone]
      exact hcnt r wk
    · intro hzero
      exact absurd hzero hp
    · intro _
      rw [if_neg hone]
      rfl
    · simp only [decide_eq_true_eq]
      exact Iff.rfl

/-! ### Theorems for C1 (fallback loop) -/

/-- C1 counterexample: the loop breaks only on a 2xx response
(`if (proxyResponse.ok) break`), and after exhaustion the last completed
response is forwarded.  With a valid token whose key and a second key
both resolve, a first candidate answering 400 is not committed — the
second candidate's 200 is returned instead of the 4xx; and with a single
candidate answering 500 the client receives that 500, not the claimed
502 body. -/
theorem handleProxy_fallback_counterexample :
    (handleProxy
      ⟨[⟨"sk1", "feen_tok", hash "feen_tok", "k1", "u", true, none, none, 0, [], 10⟩],
       [⟨"k1", "u", none, .OPENAI, "enc1", true⟩, ⟨"k2", "u", none, .ANTHROPIC, "enc2", true⟩],
       some ⟨[], []⟩, fun _ => none,
       fun k => if k.id = "k1" then .completed 400 else .completed 200, 0⟩
      ⟨some "Bearer feen_tok", some "1.2.3.4", "POST", none⟩).result =
        .upstreamResponse 200
    ∧ ProxyResult.upstreamResponse 200 ≠ ProxyResult.upstreamResponse 400
    ∧ (handleProxy
        ⟨[⟨"sk1", "feen_tok", hash "feen_tok", "k1", "u", true, none, none, 0, [], 10⟩],
         [⟨"k1", "u", none, .OPENAI, "enc1", true⟩],
         some ⟨[], []⟩, fun _ => none, fun _ => .completed 500, 0⟩
        ⟨some "Bearer feen_tok", some "1.2.3.4", "POST", none⟩).result =
          .upstreamResponse 500
    ∧ ProxyResult.upstreamResponse 500 ≠
        ProxyResult.errorResponse 502 "All available providers failed" := by
  decide

/-- C1 (amended): the transport tries the candidates in order, skipping
candidates without a base URL; on a transport error or any non-2xx
status it tries the next candidate; it commits the first 2xx response;
if no candidate yields 2xx the client receives the last completed
response (including a 4xx or 5xx), and only if no candidate completed at
all does the client receive 502 with body
`error: All available providers failed`. -/
theorem forwardToProviders_fallback (env : ProxyEnv) (req : ProxyRequest)
    (sharedKey : SharedKey) (sharedApiKey : ApiKey) (redisAfter : Option RedisKV)
    (sorted : List ApiKey)
    (hsorted : sorted =
      sortApiKeysByPreference
        (env.apiKeys.filter (fun k =>
          (k.userId = sharedKey.ownerId || k.teamId = sharedApiKey.teamId) && k.isActive))
        (match req.requestedModel with
         | some model =>
            getFastestProvider env.latency model
              ((env.apiKeys.filter (fun k =>
                (k.userId = sharedKey.ownerId || k.teamId = sharedApiKey.teamId)
                  && k.isActive)).map (fun k => k.provider))
         | none => some sharedApiKey.provider)
        sharedKey.apiKeyId)
    (hne : sorted ≠ []) :
    (forwardToProviders env req sharedKey sharedApiKey redisAfter).result =
      match (attemptedStatuses env.upstream sorted).find? statusOk with
      | some s => .upstreamResponse s
      | none =>
        match (attemptedStatuses env.upstream sorted).getLast? with
        | some s => .upstreamResponse s
        | none => .errorResponse 502 "All available providers failed" := by
  have hfwd : forwardToProviders env req sharedKey sharedApiKey redisAfter =
      fallbackResult env.upstream redisAfter sorted := by
    rw [hsorted]
    rfl
  rw [hfwd]
  cases sorted with
  | nil => exact absurd rfl hne
  | cons k rest =>
    unfold fallbackResult
    simp only
    rw [runAttempts_eq]
    cases hfind : (attemptedStatuses env.upstream (k :: rest)).find? statusOk with
    | some s => rfl
    | none =>
      cases hlast : (attemptedStatuses env.upstream (k :: rest)).getLast? with
      | none => rfl
      | some s => rfl

/-! ### Theorems for C2 (suspicious-activity recording) -/

/-- C2 counterexample: the `TOKEN_EXPIRED` failure path — one of the
paths the claim covers — returns its 401 response while recording no
suspicious-activity event at all (the proxy route contains no call to
`recordSuspiciousActivity`). -/
theorem handleProxy_suspicious_counterexample :
    (handleProxy
      ⟨[⟨"sk1", "feen_tok", hash "feen_tok", "k1", "u", true, some 5, none, 0, [], 10⟩],
       [⟨"k1", "u", none, .OPENAI, "enc1", true⟩],
       some ⟨[], []⟩, fun _ => none, fun _ => .completed 200, 10⟩
      ⟨some "Bearer feen_tok", some "1.2.3.4", "POST", none⟩) =
      ⟨.errorResponse 401 "Access token has expired", some ⟨[], []⟩, []⟩ := by
  decide

/-- C2 (amended): no policy-evaluation failure path of the proxy records
a suspicious-activity event — every branch of `handleProxy` (token
format, lookup, expiry, usage cap, IP, rate limit, transport) completes
with an empty list of recorded events; scope and signature checks are
not performed by the proxy at all, and `recordSuspiciousActivity` is
never invoked on the request path. -/
theorem handleProxy_records_no_suspicious_events (env : ProxyEnv)
    (req : ProxyRequest) :
    (handleProxy env req).suspiciousEvents = [] := by
  unfold handleProxy proxyWithToken forwardToProviders fallbackResult
  dsimp only
  repeat' split <;> try rfl

/-! ### Theorems for C3 (IP allow-list) -/

/-- C3 counterexample: the IP gate is a literal membership test
(`allowedIPs.includes(clientIP)`); a CIDR entry is never interpreted.
With `allowed_ips = [10.0.0.0/24]` and client IP `10.0.0.5` — an
address inside that range, which the claim says must pass — the proxy
answers 403. -/
theorem handleProxy_cidr_counterexample :
    ipBlocked ["10.0.0.0/24"] "10.0.0.5" = true
    ∧ (handleProxy
        ⟨[⟨"sk1", "feen_tok", hash "feen_tok", "k1", "u", true, none, none, 0,
            ["10.0.0.0/24"], 10⟩],
         [⟨"k1", "u", none, .OPENAI, "enc1", true⟩],
         some ⟨[], []⟩, fun _ => none, fun _ => .completed 200, 0⟩
        ⟨some "Bearer feen_tok", some "10.0.0.5", "POST", none⟩).result =
          .errorResponse 403 "IP address not allowed" := by
  decide

/-- C3 (amended): when a shared token's `allowed_ips` set is non-empty,
a proxy request passes the IP check iff the client IP is literally equal
to one of the entries (CIDR ranges are never interpreted as ranges); a
request whose IP cannot be determined is treated as `unknown`, which
matches only a literal `unknown` entry; a non-match yields the 403
response. -/
theorem ipCheck_spec (env : ProxyEnv) (req : ProxyRequest) (sharedKey : SharedKey)
    (hexp : sharedKey.expiresAt.any (fun e => e < env.now) = false)
    (husage : sharedKey.maxUsage.any
      (fun m => m ≠ 0 && sharedKey.usageCount ≥ m) = false)
    (hblocked : ipBlocked sharedKey.allowedIPs (clientIPOf req) = true) :
    (proxyWithToken env req sharedKey).result =
      .errorResponse 403 "IP address not allowed"
    ∧ (∀ allowed : List String, ∀ ip : String,
        ipBlocked allowed ip = false ↔ (allowed = [] ∨ ip ∈ allowed))
    ∧ (∀ r : ProxyRequest, r.xForwardedFor = none → clientIPOf r = "unknown") := by
  refine ⟨?_, ?_, ?_⟩
  · have husage' : Option.any
        (fun m => !decide (m = 0) && decide (m ≤ sharedKey.usageCount))
        sharedKey.maxUsage = false := by
      simpa [ne_eq, ge_iff_le, decide_not] using husage
    simp [proxyWithToken, hexp, husage', hblocked]
  · intro allowed ip
    simp [ipBlocked, List.isEmpty_iff, List.elem_iff]
    tauto
  · intro r hr
    simp [clientIPOf, hr]

/-! ### Theorems for C4 (router candidate order) -/

/-- C4 counterexample: owner keys are an OpenAI key `a` (inserted
first) and an Anthropic key `b`; the shared token references key `b`;
the requested model `zzz` has an empty preferred-provider list.
`getFastestProvider` returns `availableProviders[0]` — OpenAI, the
provider of the first inserted key — and the candidate order starts with
key `a`, not with the token's referenced key `b` as the claim states. -/
theorem router_counterexample :
    getFastestProvider (fun _ => none) "zzz" [.OPENAI, .ANTHROPIC] = some .OPENAI
    ∧ sortApiKeysByPreference
        [⟨"a", "u", none, .OPENAI, "e1", true⟩, ⟨"b", "u", none, .ANTHROPIC, "e2", true⟩]
        (some .OPENAI) "b" =
        [⟨"a", "u", none, .OPENAI, "e1", true⟩, ⟨"b", "u", none, .ANTHROPIC, "e2", true⟩]
    ∧ ApiProvider.OPENAI ≠ ApiProvider.ANTHROPIC := by
  decide

/-- C4 (amended): when the requested model's preferred-provider list
intersected with the providers of the owner's keys is empty,
`getFastestProvider` falls back to `availableProviders[0]` — the
provider of the *first* key in the owner's key list (insertion order) —
so the candidate order begins with a key of that provider, not with the
key directly referenced by the shared token; and because the source
comparator is inconsistent on the best-provider group (Node/V8 reverses
it), the head of the candidate order is the *last* key in insertion
order whose provider is the first key's provider. -/
theorem router_empty_preferred (latency : ApiProvider → Option Nat)
    (model : String) (keys : List ApiKey) (refKeyId : String)
    (k0 : ApiKey) (rest : List ApiKey)
    (hkeys : keys = k0 :: rest)
    (hpref : (keys.map (fun k => k.provider)).filter
      (fun p => ((((MODEL_PROVIDER_MAP.find? (fun e => e.1 = model)).map
        (fun e => e.2)).getD []).contains p)) = []) :
    getFastestProvider latency model (keys.map (fun k => k.provider)) =
      some k0.provider
    ∧ (sortApiKeysByPreference keys (some k0.provider) refKeyId).head? =
        (keys.filter (fun k => some k.provider = some k0.provider)).getLast?
    ∧ (keys.filter (fun k => some k.provider = some k0.provider)).getLast? ≠
        none := by
  subst hkeys
  have hb : (k0 :: rest).filter (fun k => some k.provider = some k0.provider) =
      k0 :: rest.filter (fun k => some k.provider = some k0.provider) := by
    rw [List.filter_cons, if_pos (by simp)]
  refine ⟨?_, ?_, ?_⟩
  · simp only [getFastestProvider]
    rw [hpref]
    rfl
  · unfold sortApiKeysByPreference
    rw [List.append_assoc, List.head?_append, List.head?_reverse]
    rw [hb]
    cases hlast : (k0 :: rest.filter
        (fun k => some k.provider = some k0.provider)).getLast? with
    | none => simp at hlast
    | some v => rfl
  · rw [hb]
    simp

/-! ### Theorems for C6 (suspicious activity and rotation) -/

theorem getList_lpush_setTtl (st : SecurityState) (k v : String) (t : Nat) :
    ((st.lpush k v).setTtl k t).getList k = v :: st.getList k := by
  simp [SecurityState.lpush, SecurityState.setTtl, SecurityState.getList,
    List.find?_cons]

theorem getTtl_setTtl (st : SecurityState) (k : String) (t : Nat) :
    (st.setTtl k t).getTtl k = some t := by
  simp [SecurityState.setTtl, SecurityState.getTtl, List.find?_cons]

theorem find?_map_update (tid newTok newHash : String) :
    ∀ (l : List SharedKey) (r : SharedKey),
      l.find? (fun k => k.id = tid) = some r →
      (l.map (fun k : SharedKey =>
        if k.id = tid then
          { k with accessToken := newTok, tokenHash := newHash }
        else k)).find? (fun k => k.id = tid) =
        some { r with accessToken := newTok, tokenHash := newHash } := by
  intro l
  induction l with
  | nil => intro r h; simp at h
  | cons a rest ih =>
    intro r h
    by_cases ha : a.id = tid
    · rw [List.find?_cons_of_pos _ (by simp [ha])] at h
      obtain rfl : a = r := by simpa using h
      simp only [List.map_cons, if_pos ha]
      rw [List.find?_cons_of_pos _ (by simp [ha])]
    · rw [List.find?_cons_of_neg _ (by simp [ha])] at h
      simp only [List.map_cons, if_neg ha]
      rw [List.find?_cons_of_neg _ (by simp [ha])]
      exact ih r h

theorem generateAccessToken_feen (rand : String) :
    jsStartsWith (generateAccessToken "feen" rand) "feen_" = true := by
  have hdata : (generateAccessToken "feen" rand).data =
      "feen_".data ++ rand.data := by
    show (("feen" ++ "_") ++ rand).data = _
    rw [String.data_append]
    rfl
  simp [jsStartsWith, hdata, List.isPrefixOf_iff_prefix]

/-- C6: recording a suspicious event appends it to the per-token,
per-type list with a one-hour TTL and triggers rotation exactly when the
list length meets or exceeds the type's threshold (threshold 1 — i.e.
immediate — for `REPLAY_ATTACK` and `IP_BLACKLISTED`); rotation mints a
new `feen_`-prefixed access token, updates `access_token` and
`token_hash` on the record together, deletes every
`suspicious:<token_id>:*` key, writes a `TOKEN_ROTATED` audit entry and
enqueues a notification, after which the old access token's hash no
longer matches the record. -/
theorem recordSuspiciousActivity_spec (st : SecurityState)
    (etype : SuspiciousActivityType) (tokenId userId rand : String)
    (r : SharedKey)
    (hfind : st.sharedKeys.find? (fun k => k.id = tokenId) = some r)
    (hfresh : generateAccessToken "feen" rand ≠ r.accessToken)
    (eventKey : String)
    (hkey : eventKey = "suspicious:" ++ tokenId ++ ":" ++ etype.value)
    (out : (Bool × Option String) × SecurityState)
    (hout : out = recordSuspiciousActivity st etype tokenId userId rand) :
    (ROTATION_THRESHOLDS .REPLAY_ATTACK = 1
      ∧ ROTATION_THRESHOLDS .IP_BLACKLISTED = 1)
    ∧ (out.1.1 = true ↔
        (st.getList eventKey).length + 1 ≥ ROTATION_THRESHOLDS etype)
    ∧ (out.1.1 = false →
        out.2.getList eventKey = etype.value :: st.getList eventKey
        ∧ out.2.getTtl eventKey = some VIOLATION_WINDOW)
    ∧ (out.1.1 = true →
        out.1.2 = some (generateAccessToken "feen" rand)
        ∧ jsStartsWith (generateAccessToken "feen" rand) "feen_" = true
        ∧ out.2.sharedKeys.find? (fun k => k.id = tokenId) =
            some { r with accessToken := generateAccessToken "feen" rand,
                          tokenHash := hash (generateAccessToken "feen" rand) }
        ∧ hash r.accessToken ≠ hash (generateAccessToken "feen" rand)
        ∧ (∀ e ∈ out.2.suspiciousLists,
            jsStartsWith e.1 ("suspicious:" ++ tokenId ++ ":") = false)
        ∧ (⟨userId, "TOKEN_ROTATED", "sharedKey", tokenId⟩ : AuditEntry)
            ∈ out.2.auditLog
        ∧ (⟨"token_rotated", userId, tokenId, etype.value⟩ : Notification)
            ∈ out.2.notificationsQueue) := by
  subst hkey hout
  have hlist : (((st.lpush ("suspicious:" ++ tokenId ++ ":" ++ etype.value)
        etype.value).setTtl ("suspicious:" ++ tokenId ++ ":" ++ etype.value)
        VIOLATION_WINDOW).getList
        ("suspicious:" ++ tokenId ++ ":" ++ etype.value)) =
      etype.value :: st.getList ("suspicious:" ++ tokenId ++ ":" ++ etype.value) :=
    getList_lpush_setTtl st _ _ _
  refine ⟨⟨rfl, rfl⟩, ?_, ?_, ?_⟩
  · unfold recordSuspiciousActivity
    dsimp only
    rw [hlist]
    by_cases hge : (etype.value ::
        st.getList ("suspicious:" ++ tokenId ++ ":" ++ etype.value)).length ≥
        ROTATION_THRESHOLDS etype
    · rw [if_pos hge]
      simp only [List.length_cons] at hge
      simpa using hge
    · rw [if_neg hge]
      simp only [List.length_cons] at hge
      simpa using hge
  · intro hflag
    unfold recordSuspiciousActivity at hflag ⊢
    dsimp only at hflag ⊢
    rw [hlist] at hflag ⊢
    by_cases hge : (etype.value ::
        st.getList ("suspicious:" ++ tokenId ++ ":" ++ etype.value)).length ≥
        ROTATION_THRESHOLDS etype
    · rw [if_pos hge] at hflag
      simp at hflag
    · rw [if_neg hge]
      constructor
      · simpa [SecurityState.getList] using hlist
      · simp [SecurityState.getTtl, SecurityState.setTtl, SecurityState.lpush,
          List.find?_cons]
  · intro hflag
    unfold recordSuspiciousActivity at hflag ⊢
    dsimp only at hflag ⊢
    rw [hlist] at hflag ⊢
    by_cases hge : (etype.value ::
        st.getList ("suspicious:" ++ tokenId ++ ":" ++ etype.value)).length ≥
        ROTATION_THRESHOLDS etype
    swap
    · rw [if_neg hge] at hflag
      simp at hflag
    rw [if_pos hge] at hflag ⊢
    refine ⟨rfl, generateAccessToken_feen rand, ?_, ?_, ?_, ?_, ?_⟩
    · exact find?_map_update tokenId _ _ st.sharedKeys r hfind
    · intro h
      exact hfresh (hash_injective h).symm
    · intro e he
      have := List.of_mem_filter he
      simpa using this
    · show _ ∈ _ ++ [(⟨userId, "TOKEN_ROTATED", "sharedKey", tokenId⟩ : AuditEntry)]
      simp
    · show _ ∈ (⟨"token_rotated", userId, tokenId, etype.value⟩ : Notification) :: _
      simp

/-! ### Theorem for C7 (authenticated encryption round trip) -/

/-- C7: for every plaintext `p` (as bytes) and fresh 16-byte IV,
`decrypt (encrypt p) = p`; the encrypted blob is the base64 encoding of
the concatenation `nonce ‖ tag ‖ ciphertext`; and altering any single
byte of the (decoded) blob makes `decrypt` fail with `IntegrityFailure`
instead of returning a value. -/
theorem encrypt_decrypt_authenticated (key iv p : List Nat)
    (hivlen : iv.length = 16)
    (hivb : ∀ b ∈ iv, b < 256)
    (hpb : ∀ b ∈ p, b < 256) :
    decrypt key (encrypt key iv p) = .ok p
    ∧ (encrypt key iv p).data =
        b64Encode (iv ++ gcmTag key iv (xorStream key iv 0 p)
          ++ xorStream key iv 0 p)
    ∧ (∀ (i b' : Nat), i < (encryptBytes key iv p).length → b' < 256 →
        b' ≠ (encryptBytes key iv p).getD i 0 →
        decrypt key ⟨b64Encode ((encryptBytes key iv p).set i b')⟩ =
          .error .integrityFailure) := by
  have hctb : ∀ x ∈ xorStream key iv 0 p, x < 256 := xorStream_lt key iv 0 p hpb
  have htaglen : (gcmTag key iv (xorStream key iv 0 p)).length = 16 :=
    gcmTag_length _ _ _
  have htagb := gcmTag_lt key iv (xorStream key iv 0 p)
  have hbytes : ∀ x ∈ iv ++ gcmTag key iv (xorStream key iv 0 p)
      ++ xorStream key iv 0 p, x < 256 := by
    intro x hx
    simp only [List.mem_append] at hx
    rcases hx with (hx | hx) | hx
    · exact hivb x hx
    · exact htagb x hx
    · exact hctb x hx
  have hEB : encryptBytes key iv p =
      iv ++ gcmTag key iv (xorStream key iv 0 p) ++ xorStream key iv 0 p := rfl
  refine ⟨?_, rfl, ?_⟩
  · rw [show encrypt key iv p = ⟨b64Encode (iv ++ gcmTag key iv
      (xorStream key iv 0 p) ++ xorStream key iv 0 p)⟩ from rfl]
    rw [decrypt_split key iv _ _ hivlen htaglen hbytes, if_pos rfl,
      xorStream_xorStream]
  · intro i b' hi hb' hne
    rw [hEB] at hi hne ⊢
    have hivtag : (iv ++ gcmTag key iv (xorStream key iv 0 p)).length = 32 := by
      rw [List.length_append, hivlen, htaglen]
    have hlen : (iv ++ gcmTag key iv (xorStream key iv 0 p)
        ++ xorStream key iv 0 p).length =
        32 + (xorStream key iv 0 p).length := by
      rw [List.length_append, hivtag]
    rw [hlen] at hi
    rcases Nat.lt_or_ge i 16 with hA | hBC
    · -- tampered byte inside the IV
      have hgd : (iv ++ gcmTag key iv (xorStream key iv 0 p)
          ++ xorStream key iv 0 p).getD i 0 = iv.getD i 0 := by
        rw [List.getD_append _ _ _ i (by rw [hivtag]; omega),
          List.getD_append _ _ _ i (by rw [hivlen]; omega)]
      rw [hgd] at hne
      have hset : (iv ++ gcmTag key iv (xorStream key iv 0 p)
          ++ xorStream key iv 0 p).set i b' =
          iv.set i b' ++ gcmTag key iv (xorStream key iv 0 p)
            ++ xorStream key iv 0 p := by
        rw [List.set_append, if_pos (by rw [hivtag]; omega),
          List.set_append, if_pos (by rw [hivlen]; omega)]
      rw [hset]
      have hb2 : ∀ x ∈ iv.set i b' ++ gcmTag key iv (xorStream key iv 0 p)
          ++ xorStream key iv 0 p, x < 256 := by
        intro x hx
        simp only [List.mem_append] at hx
        rcases hx with (hx | hx) | hx
        · exact set_bound iv i b' hivb hb' x hx
        · exact htagb x hx
        · exact hctb x hx
      rw [decrypt_split key _ _ _ (by rw [List.length_set, hivlen]) htaglen hb2]
      rw [if_neg]
      intro he
      exact gcmTag_set_iv_ne key iv (xorStream key iv 0 p) i b'
        (by rw [hivlen]; omega) hb' hivb hne (by
          -- `he` compares the tag recomputed from the modified IV with
          -- the stored tag computed from the original IV
          exact he)
    · rcases Nat.lt_or_ge i 32 with hB | hC
      · -- tampered byte inside the stored tag
        have hgd : (iv ++ gcmTag key iv (xorStream key iv 0 p)
            ++ xorStream key iv 0 p).getD i 0 =
            (gcmTag key iv (xorStream key iv 0 p)).getD (i - 16) 0 := by
          rw [List.getD_append _ _ _ i (by rw [hivtag]; omega),
            List.getD_append_right _ _ _ i (by rw [hivlen]; omega), hivlen]
        rw [hgd] at hne
        have hset : (iv ++ gcmTag key iv (xorStream key iv 0 p)
            ++ xorStream key iv 0 p).set i b' =
            iv ++ (gcmTag key iv (xorStream key iv 0 p)).set (i - 16) b'
              ++ xorStream key iv 0 p := by
          rw [List.set_append, if_pos (by rw [hivtag]; omega),
            List.set_append, if_neg (by rw [hivlen]; omega), hivlen]
        rw [hset]
        have hb2 : ∀ x ∈ iv ++ (gcmTag key iv (xorStream key iv 0 p)).set
            (i - 16) b' ++ xorStream key iv 0 p, x < 256 := by
          intro x hx
          simp only [List.mem_append] at hx
          rcases hx with (hx | hx) | hx
          · exact hivb x hx
          · exact set_bound _ _ _ htagb hb' x hx
          · exact hctb x hx
        rw [decrypt_split key _ _ _ hivlen (by rw [List.length_set, htaglen]) hb2]
        rw [if_neg]
        intro he
        exact set_ne_of_getD_ne (gcmTag key iv (xorStream key iv 0 p))
          (i - 16) b' (by rw [htaglen]; omega) hne he.symm
      · -- tampered byte inside the ciphertext
        have hgd : (iv ++ gcmTag key iv (xorStream key iv 0 p)
            ++ xorStream key iv 0 p).getD i 0 =
            (xorStream key iv 0 p).getD (i - 32) 0 := by
          rw [List.getD_append_right _ _ _ i (by rw [hivtag]; omega), hivtag]
        rw [hgd] at hne
        have hset : (iv ++ gcmTag key iv (xorStream key iv 0 p)
            ++ xorStream key iv 0 p).set i b' =
            iv ++ gcmTag key iv (xorStream key iv 0 p)
              ++ (xorStream key iv 0 p).set (i - 32) b' := by
          rw [List.set_append, if_neg (by rw [hivtag]; omega), hivtag]
        rw [hset]
        have hb2 : ∀ x ∈ iv ++ gcmTag key iv (xorStream key iv 0 p)
            ++ (xorStream key iv 0 p).set (i - 32) b', x < 256 := by
          intro x hx
          simp only [List.mem_append] at hx
          rcases hx with (hx | hx) | hx
          · exact hivb x hx
          · exact htagb x hx
          · exact set_bound _ _ _ hctb hb' x hx
        rw [decrypt_split key _ _ _ hivlen htaglen hb2]
        rw [if_neg]
        intro he
        exact gcmTag_set_ct_ne key iv (xorStream key iv 0 p) (i - 32) b'
          (by omega) hb' hctb hne he

/-! ### Theorems for C9 (nonce consumption) and C10 (timingSafeEqual length) -/

/-- C9: `verifySignature` inserts the `(tokenId, nonce)` pair into the
nonce cache before checking the HMAC, so a call that fails with
`Invalid signature` still consumes the nonce: the failing call returns
the cleaned cache containing the nonce entry; every later call carrying
the same token and nonce — whatever its signature — is rejected with the
replay error while the entry is present; and the cleanup performed on
each call drops exactly the entries older than 2 × 300 seconds. -/
theorem verifySignature_consumes_nonce (cache : List (String × Int))
    (headers : SigHeaders) (method path : String) (body : Option String)
    (tokenId secret : String) (now ts : Int)
    (hts : jsParseInt headers.timestamp = some ts)
    (hwin : (now - ts).natAbs ≤ 300)
    (hfresh : cache.any (fun e => e.1 = tokenId ++ ":" ++ headers.nonce) = false)
    (hlen : headers.signature.length = 64)
    (hwrong : headers.signature ≠
      generateSignature ⟨ts, headers.nonce, method, path, body, tokenId⟩ secret) :
    verifySignature cache headers method path body tokenId secret now =
      .ok (⟨false, some "Invalid signature"⟩,
        cleanOldNonces ((tokenId ++ ":" ++ headers.nonce, ts) :: cache) now)
    ∧ (cleanOldNonces ((tokenId ++ ":" ++ headers.nonce, ts) :: cache) now).any
        (fun e => e.1 = tokenId ++ ":" ++ headers.nonce) = true
    ∧ (∀ (cache2 : List (String × Int)) (headers2 : SigHeaders)
          (ts2 now2 : Int),
        jsParseInt headers2.timestamp = some ts2 →
        (now2 - ts2).natAbs ≤ 300 →
        headers2.nonce = headers.nonce →
        cache2.any (fun e => e.1 = tokenId ++ ":" ++ headers2.nonce) = true →
        verifySignature cache2 headers2 method path body tokenId secret now2 =
          .ok (⟨false, some "Nonce already used (replay attack detected)"⟩, cache2))
    ∧ (∀ (c : List (String × Int)) (t : Int) (e : String × Int),
        e ∈ cleanOldNonces c t ↔ (e ∈ c ∧ ¬ e.2 < t - 600)) := by
  have hexplen : (generateSignature
      ⟨ts, headers.nonce, method, path, body, tokenId⟩ secret).length = 64 :=
    hmacSha256Hex_length _ _
  refine ⟨?_, ?_, ?_, ?_⟩
  · have htse : timingSafeEqual headers.signature
        (generateSignature ⟨ts, headers.nonce, method, path, body, tokenId⟩ secret) =
        .ok false := by
      unfold timingSafeEqual
      rw [if_pos (by rw [hlen, hexplen]), beq_eq_false_iff_ne.mpr hwrong]
    unfold verifySignature
    simp only [hts]
    rw [if_neg (show ¬ (now - ts).natAbs > 300 by omega)]
    simp only [hfresh, Bool.false_eq_true, if_false]
    rw [htse]
    rfl
  · have hkeep : ¬ ts < now - SIGNATURE_VALIDITY_SECONDS * 2 := by
      have : SIGNATURE_VALIDITY_SECONDS = 300 := rfl
      omega
    unfold cleanOldNonces
    rw [List.filter_cons]
    simp only [hkeep, decide_not]
    simp
  · intro cache2 headers2 ts2 now2 hts2 hwin2 hn hmem
    unfold verifySignature
    simp only [hts2]
    rw [if_neg (show ¬ (now2 - ts2).natAbs > 300 by omega)]
    simp [hmem]
  · intro c t e
    unfold cleanOldNonces
    constructor
    · intro h
      have := List.of_mem_filter h
      refine ⟨List.mem_of_mem_filter h, by simpa using this⟩
    · rintro ⟨hmem, hts'⟩
      refine List.mem_filter.mpr ⟨hmem, by simpa [SIGNATURE_VALIDITY_SECONDS] using hts'⟩

/-- C10: `crypto.timingSafeEqual` requires equal-length buffers, so a
supplied signature whose byte length is not the 64 characters of the
expected hex HMAC makes `verifySignature` throw instead of returning
`valid: false`; likewise `verifyTOTP` throws for any supplied code whose
byte length differs from the 6-digit expected code. -/
theorem timingSafeEqual_length_throws (cache : List (String × Int))
    (headers : SigHeaders) (method path : String) (body : Option String)
    (tokenId secret : String) (now ts : Int)
    (hts : jsParseInt headers.timestamp = some ts)
    (hwin : (now - ts).natAbs ≤ 300)
    (hfresh : cache.any (fun e => e.1 = tokenId ++ ":" ++ headers.nonce) = false)
    (hlen : headers.signature.length ≠ 64) :
    verifySignature cache headers method path body tokenId secret now = .error ()
    ∧ (∀ (secret2 code : String) (now2 : Nat),
        code.length ≠ 6 → verifyTOTP secret2 code now2 = .error ()) := by
  constructor
  · have hexplen : (generateSignature
        ⟨ts, headers.nonce, method, path, body, tokenId⟩ secret).length = 64 :=
      hmacSha256Hex_length _ _
    have htse : timingSafeEqual headers.signature
        (generateSignature ⟨ts, headers.nonce, method, path, body, tokenId⟩ secret) =
        .error () := by
      unfold timingSafeEqual
      rw [if_neg (by rw [hexplen]; exact hlen)]
    unfold verifySignature
    simp only [hts]
    rw [if_neg (show ¬ (now - ts).natAbs > 300 by omega)]
    simp only [hfresh, Bool.false_eq_true, if_false]
    rw [htse]
  · intro secret2 code now2 hcl
    have htse : timingSafeEqual code
        (generateTOTP secret2 (Int.ofNat (now2 / 30) - 1)) = .error () := by
      unfold timingSafeEqual
      rw [if_neg (by rw [generateTOTP_length]; exact hcl)]
    unfold verifyTOTP totpLoop
    rw [htse]

/-! ### Witnesses -/

/-- Concrete instantiation of `checkRateLimit_spec`: an empty store,
token id `t`, limit 2, `now = 0`. -/
theorem checkRateLimit_spec_witness :
    ((({ allowed := true, remaining := 1, resetAt := 60 } : RateLimitResult),
        some (⟨[("ratelimit:shared:t:minute:0", 1)],
              [("ratelimit:shared:t:minute:0", 60)]⟩ : RedisKV)) =
      checkRateLimit (some ⟨[], []⟩) ("shared:" ++ "t" ++ ":minute") 2 60 0)
    ∧ rateLimitWindowKey ("shared:" ++ "t" ++ ":minute") 60 0 =
        "ratelimit:shared:" ++ "t" ++ ":minute:" ++ toString (0 / 60) :=
  ⟨by decide,
   (checkRateLimit_spec ⟨[], []⟩ "t" 2 0
      (rateLimitWindowKey ("shared:" ++ "t" ++ ":minute") 60 0) 0
      { allowed := true, remaining := 1, resetAt := 60 }
      (some ⟨[("ratelimit:shared:t:minute:0", 1)],
            [("ratelimit:shared:t:minute:0", 60)]⟩)
      rfl (by decide) (by decide)).1⟩

/-- Concrete instantiation of `forwardToProviders_fallback`: a single
candidate whose upstream answers 503; the amended fallback semantics
forward that 503. -/
theorem forwardToProviders_fallback_witness :
    (forwardToProviders
      ⟨[⟨"sk1", "feen_tok", hash "feen_tok", "k1", "u", true, none, none, 0, [], 10⟩],
       [⟨"k1", "u", none, .OPENAI, "enc1", true⟩],
       some ⟨[], []⟩, fun _ => none, fun _ => .completed 503, 0⟩
      ⟨some "Bearer feen_tok", some "1.2.3.4", "POST", none⟩
      ⟨"sk1", "feen_tok", hash "feen_tok", "k1", "u", true, none, none, 0, [], 10⟩
      ⟨"k1", "u", none, .OPENAI, "enc1", true⟩
      (some ⟨[], []⟩)).result = .upstreamResponse 503 := by
  have h := forwardToProviders_fallback
    ⟨[⟨"sk1", "feen_tok", hash "feen_tok", "k1", "u", true, none, none, 0, [], 10⟩],
     [⟨"k1", "u", none, .OPENAI, "enc1", true⟩],
     some ⟨[], []⟩, fun _ => none, fun _ => .completed 503, 0⟩
    ⟨some "Bearer feen_tok", some "1.2.3.4", "POST", none⟩
    ⟨"sk1", "feen_tok", hash "feen_tok", "k1", "u", true, none, none, 0, [], 10⟩
    ⟨"k1", "u", none, .OPENAI, "enc1", true⟩
    (some ⟨[], []⟩)
    [⟨"k1", "u", none, .OPENAI, "enc1", true⟩]
    (by decide) (by decide)
  rw [h]
  decide

/-- Concrete instantiation of `ipCheck_spec`: a token with allow-list
`[10.0.0.1]` and a client at `9.9.9.9` draws the 403 answer. -/
theorem ipCheck_spec_witness :
    (proxyWithToken
      ⟨[], [], some ⟨[], []⟩, fun _ => none, fun _ => .completed 200, 0⟩
      ⟨some "Bearer feen_tok", some "9.9.9.9", "POST", none⟩
      ⟨"sk1", "feen_tok", hash "feen_tok", "k1", "u", true, none, none, 0,
        ["10.0.0.1"], 10⟩).result = .errorResponse 403 "IP address not allowed" :=
  (ipCheck_spec
    ⟨[], [], some ⟨[], []⟩, fun _ => none, fun _ => .completed 200, 0⟩
    ⟨some "Bearer feen_tok", some "9.9.9.9", "POST", none⟩
    ⟨"sk1", "feen_tok", hash "feen_tok", "k1", "u", true, none, none, 0,
      ["10.0.0.1"], 10⟩
    (by decide) (by decide) (by decide)).1

/-- Concrete instantiation of `encrypt_decrypt_authenticated`: a
two-byte plaintext under a 16-byte IV round-trips. -/
theorem encrypt_decrypt_authenticated_witness :
    decrypt [1, 2]
      (encrypt [1, 2] [0, 1, 2, 3, 4, 5, 6, 7, 8, 9, 10, 11, 12, 13, 14, 15]
        [104, 105]) = .ok [104, 105] :=
  (encrypt_decrypt_authenticated [1, 2]
    [0, 1, 2, 3, 4, 5, 6, 7, 8, 9, 10, 11, 12, 13, 14, 15] [104, 105]
    (by decide) (by decide) (by decide)).1

/-- Concrete instantiation of `recordSuspiciousActivity_spec`: a state
with one token record, a `REPLAY_ATTACK` event and fresh random bytes. -/
theorem recordSuspiciousActivity_spec_witness :
    ROTATION_THRESHOLDS .REPLAY_ATTACK = 1
    ∧ ROTATION_THRESHOLDS .IP_BLACKLISTED = 1 :=
  (recordSuspiciousActivity_spec
    ⟨[⟨"t1", "feen_old", hash "feen_old", "k1", "u", true, none, none, 0, [], 10⟩],
      [], [], [], []⟩
    .REPLAY_ATTACK "t1" "u" "R2"
    ⟨"t1", "feen_old", hash "feen_old", "k1", "u", true, none, none, 0, [], 10⟩
    (by decide) (by decide)
    ("suspicious:" ++ "t1" ++ ":" ++ SuspiciousActivityType.value .REPLAY_ATTACK)
    rfl
    (recordSuspiciousActivity
      ⟨[⟨"t1", "feen_old", hash "feen_old", "k1", "u", true, none, none, 0, [], 10⟩],
        [], [], [], []⟩
      .REPLAY_ATTACK "t1" "u" "R2")
    rfl).1

set_option maxRecDepth 10000 in
/-- Concrete instantiation of `verifySignature_consumes_nonce`: a fresh
nonce, a valid timestamp and a wrong-but-64-character signature draw the
`Invalid signature` answer while the nonce enters the cache. -/
theorem verifySignature_consumes_nonce_witness :
    verifySignature []
      ⟨"100", "aaaaaaaaaaaaaaaaaaaaaaaaaaaaaaaaaaaaaaaaaaaaaaaaaaaaaaaaaaaaaaaa", "n1"⟩
      "POST" "/p" none "tok" "sec" 100 =
      .ok (⟨false, some "Invalid signature"⟩,
        cleanOldNonces (("tok" ++ ":" ++ "n1", 100) :: []) 100) :=
  (verifySignature_consumes_nonce []
    ⟨"100", "aaaaaaaaaaaaaaaaaaaaaaaaaaaaaaaaaaaaaaaaaaaaaaaaaaaaaaaaaaaaaaaa", "n1"⟩
    "POST" "/p" none "tok" "sec" 100 100
    (by decide) (by decide) (by decide) (by decide) (by decide)).1

/-- Concrete instantiation of `timingSafeEqual_length_throws`: a
5-character signature and a 3-character TOTP code both make the
verifiers throw. -/
theorem timingSafeEqual_length_throws_witness :
    verifySignature [] ⟨"100", "short", "n1"⟩ "POST" "/p" none "tok" "sec" 100 =
      .error ()
    ∧ verifyTOTP "s" "123" 0 = .error () :=
  ⟨(timingSafeEqual_length_throws [] ⟨"100", "short", "n1"⟩ "POST" "/p" none
      "tok" "sec" 100 100 (by decide) (by decide) (by decide) (by decide)).1,
   (timingSafeEqual_length_throws [] ⟨"100", "short", "n1"⟩ "POST" "/p" none
      "tok" "sec" 100 100 (by decide) (by decide) (by decide) (by decide)).2
     "s" "123" 0 (by decide)⟩

/-- Concrete instantiation of `router_empty_preferred`: two owned OpenAI
keys and a model absent from `MODEL_PROVIDER_MAP`; the candidate order
begins with the second (last-inserted) OpenAI key. -/
theorem router_empty_preferred_witness :
    getFastestProvider (fun _ => none) "zzz"
      ([(⟨"a", "u", none, .OPENAI, "e1", true⟩ : ApiKey),
        ⟨"c", "u", none, .OPENAI, "e2", true⟩].map (fun k => k.provider)) =
      some ApiProvider.OPENAI
    ∧ (sortApiKeysByPreference
        [(⟨"a", "u", none, .OPENAI, "e1", true⟩ : ApiKey),
          ⟨"c", "u", none, .OPENAI, "e2", true⟩]
        (some ApiProvider.OPENAI) "b").head? =
        some ⟨"c", "u", none, .OPENAI, "e2", true⟩ :=
  ⟨(router_empty_preferred (fun _ => none) "zzz"
      [⟨"a", "u", none, .OPENAI, "e1", true⟩, ⟨"c", "u", none, .OPENAI, "e2", true⟩]
      "b" ⟨"a", "u", none, .OPENAI, "e1", true⟩
      [⟨"c", "u", none, .OPENAI, "e2", true⟩] rfl (by decide)).1,
   by decide⟩

end Feen
